import Mathlib

/-!
Verification development for the sql2sparql query translation engine.

The definitions below are a shallow embedding of the Python source
(`sql2sparql/core`, `sql2sparql/converters`, `sql2sparql/parsers`):
pure string manipulation is translated to functions on `String` /
`List Char`, Python dictionaries (which preserve insertion order) are
translated to association lists, and the mutable converter instance
state is threaded explicitly.  The random entity identifier drawn by
`uuid.uuid4().hex[:8]` in `InsertDeleteConverter._generate_subject_uri`
is modelled as an explicit input parameter.
-/

/-! ## Decimal rendering of naturals (Python f-string `{n}` formatting) -/

/-- A single decimal digit character for `d < 10`. -/
def digitChar (d : Nat) : Char :=
  match d with
  | 0 => '0' | 1 => '1' | 2 => '2' | 3 => '3' | 4 => '4'
  | 5 => '5' | 6 => '6' | 7 => '7' | 8 => '8' | _ => '9'

/-- Numeric value of a digit character (inverse of `digitChar`). -/
def digitVal (c : Char) : Nat :=
  match c with
  | '0' => 0 | '1' => 1 | '2' => 2 | '3' => 3 | '4' => 4
  | '5' => 5 | '6' => 6 | '7' => 7 | '8' => 8 | _ => 9

theorem digitVal_digitChar (d : Nat) (h : d < 10) : digitVal (digitChar d) = d := by
  interval_cases d <;> rfl

/-- Decimal digits of `n`, most significant first, with explicit fuel. -/
def natReprAux : Nat → Nat → List Char
  | 0, _ => []
  | fuel + 1, n =>
    if n < 10 then [digitChar n]
    else natReprAux fuel (n / 10) ++ [digitChar (n % 10)]

/-- Decimal representation of a natural number, as Python renders it. -/
def natRepr (n : Nat) : String :=
  String.mk (natReprAux (n + 1) n)

/-- Value of a digit list read most-significant-first. -/
def digitsVal (cs : List Char) : Nat :=
  cs.foldl (fun a c => a * 10 + digitVal c) 0

theorem digitsVal_append_digit (cs : List Char) (c : Char) :
    digitsVal (cs ++ [c]) = digitsVal cs * 10 + digitVal c := by
  simp [digitsVal, List.foldl_append]

theorem digitsVal_natReprAux (fuel n : Nat) (h : n < fuel) :
    digitsVal (natReprAux fuel n) = n := by
  induction fuel generalizing n with
  | zero => omega
  | succ f ih =>
    by_cases h10 : n < 10
    · simp [natReprAux, h10, digitsVal, digitVal_digitChar n h10]
    · have hd : n / 10 < f := by
        have h1 : n / 10 < n := Nat.div_lt_self (by omega) (by omega)
        omega
      simp only [natReprAux, if_neg h10]
      rw [digitsVal_append_digit, ih (n / 10) hd,
          digitVal_digitChar (n % 10) (Nat.mod_lt n (by omega))]
      omega

theorem natRepr_injective : Function.Injective natRepr := by
  intro m n h
  have hm : digitsVal (natReprAux (m + 1) m) = m :=
    digitsVal_natReprAux (m + 1) m (by omega)
  have hn : digitsVal (natReprAux (n + 1) n) = n :=
    digitsVal_natReprAux (n + 1) n (by omega)
  have hdata : natReprAux (m + 1) m = natReprAux (n + 1) n :=
    congrArg String.data h
  rw [hdata, hn] at hm
  exact hm.symm

/-! ## Python-style string helpers -/

/-- Python `str.isspace` characters relevant to `strip()`. -/
def pyIsSpace (c : Char) : Bool :=
  c = ' ' || c = '\t' || c = '\n' || c = '\x0d' || c = '\x0b' || c = '\x0c'

/-- Kernel-computable uppercase conversion (Python `str.upper` for ASCII). -/
def strUpper (s : String) : String :=
  String.mk (s.data.map Char.toUpper)

/-- Kernel-computable lowercase conversion (Python `str.lower` for ASCII). -/
def strLower (s : String) : String :=
  String.mk (s.data.map Char.toLower)

/-- Kernel-computable `startswith`. -/
def strStartsWith (s pat : String) : Bool :=
  s.data.take pat.data.length = pat.data

/-- Kernel-computable `endswith`. -/
def strEndsWith (s pat : String) : Bool :=
  (s.data.reverse.take pat.data.length) = pat.data.reverse

/-- Python `str.strip()` on a character list. -/
def pyStripList (cs : List Char) : List Char :=
  ((cs.dropWhile pyIsSpace).reverse.dropWhile pyIsSpace).reverse

/-- Python `str.strip()` (whitespace from both ends). -/
def pyStrip (s : String) : String :=
  String.mk (pyStripList s.data)

/-- Python `str.strip(chars)` with an explicit character set. -/
def pyStripCharsList (set : List Char) (cs : List Char) : List Char :=
  ((cs.dropWhile (set.contains ·)).reverse.dropWhile (set.contains ·)).reverse

/-- Python `str.strip(chars)`. -/
def pyStripChars (set : List Char) (s : String) : String :=
  String.mk (pyStripCharsList set s.data)

/-- Boolean test for one list starting with another. -/
def listStartsWith : List Char → List Char → Bool
  | _, [] => true
  | [], _ :: _ => false
  | a :: as, b :: bs => a = b && listStartsWith as bs

/-- Boolean substring containment on character lists (Python `in`). -/
def containsSubList : List Char → List Char → Bool
  | hay, needle =>
    if listStartsWith hay needle then true
    else
      match hay with
      | [] => false
      | _ :: t => containsSubList t needle

/-- Python substring containment `needle in hay`. -/
def strContains (hay needle : String) : Bool :=
  containsSubList hay.data needle.data

/-- Index of the first occurrence of a substring, if any (Python `str.find`). -/
def findSubList : List Char → List Char → Option Nat
  | hay, needle =>
    if listStartsWith hay needle then some 0
    else
      match hay with
      | [] => none
      | _ :: t =>
        match findSubList t needle with
        | some i => some (i + 1)
        | none => none

/-- Fuel-driven loop of the occurrence counter. -/
def countSubGo (needle : List Char) : Nat → List Char → Nat
  | 0, _ => 0
  | _ + 1, [] => 0
  | fuel + 1, h :: t =>
    if listStartsWith (h :: t) needle then
      countSubGo needle fuel ((h :: t).drop needle.length) + 1
    else
      countSubGo needle fuel t

/-- Count of non-overlapping occurrences of a non-empty substring (Python `str.count`). -/
def countSubList (hay needle : List Char) : Nat :=
  match needle with
  | [] => 0
  | _ :: _ => countSubGo needle (hay.length + 1) hay

/-- Count of non-overlapping occurrences of `needle` in `hay`. -/
def strCount (hay needle : String) : Nat :=
  countSubList hay.data needle.data

/-- Replace every occurrence of a single character by a string
(Python `str.replace` with a one-character pattern). -/
def replaceCharList (c : Char) (rep : List Char) : List Char → List Char
  | [] => []
  | x :: xs => (if x = c then rep else [x]) ++ replaceCharList c rep xs

/-- Replace every occurrence of character `c` in `s` by `rep`. -/
def pyReplaceChar (s : String) (c : Char) (rep : String) : String :=
  String.mk (replaceCharList c rep.data s.data)

/-- Split a string at every occurrence of a separator character (Python `str.split(c)`). -/
def splitOnCharList (c : Char) : List Char → List (List Char)
  | [] => [[]]
  | x :: xs =>
    let rest := splitOnCharList c xs
    if x = c then [] :: rest
    else
      match rest with
      | [] => [[x]]
      | r :: rs => (x :: r) :: rs

/-- Split a string on a separator character. -/
def pySplitChar (c : Char) (s : String) : List String :=
  (splitOnCharList c s.data).map String.mk

/-- ASCII word character, the `\w` class of the source's regexes. -/
def isWordChar (c : Char) : Bool :=
  c.isAlphanum || c = '_'

/-- Python `str.isdigit` for the parser's LIMIT/OFFSET token check. -/
def pyIsDigitStr (s : String) : Bool :=
  !s.data.isEmpty && s.data.all Char.isDigit

/-- Python `str.title()` word-start capitalisation, on a character list. -/
def pyTitleList (prevAlpha : Bool) : List Char → List Char
  | [] => []
  | c :: cs =>
    (if c.isAlpha then (if prevAlpha then c.toLower else c.toUpper) else c)
      :: pyTitleList c.isAlpha cs

/-- Python `str.title()` as used for type-URI construction. -/
def pyTitle (s : String) : String :=
  String.mk (pyTitleList false s.data)

/-! ## Model of Python `float()` parseability

`_format_value` and the filter builders test whether a string denotes a
number by attempting `float(value)`; this predicate models acceptance of
that call for ordinary decimal and exponent forms. -/

/-- Consume a maximal run of decimal digits. -/
def takeDigits (cs : List Char) : List Char × List Char :=
  (cs.takeWhile Char.isDigit, cs.dropWhile Char.isDigit)

/-- Exponent suffix of a Python float literal: `(e|E)[+-]?digits`. -/
def pyFloatExponent (cs : List Char) : Bool :=
  match cs with
  | [] => true
  | c :: rest =>
    if c = 'e' || c = 'E' then
      let rest2 := match rest with
        | s :: r2 => if s = '+' || s = '-' then r2 else rest
        | [] => rest
      let (ds, tail) := takeDigits rest2
      !ds.isEmpty && tail.isEmpty
    else false

/-- Main body of a Python float literal after the optional sign. -/
def pyFloatBody (cs : List Char) : Bool :=
  let lower := cs.map Char.toLower
  if lower = "inf".data || lower = "infinity".data || lower = "nan".data then true
  else
    let (intPart, rest) := takeDigits cs
    match rest with
    | [] => !intPart.isEmpty
    | c :: rest2 =>
      if c = '.' then
        let (fracPart, rest3) := takeDigits rest2
        (!intPart.isEmpty || !fracPart.isEmpty) && pyFloatExponent rest3
      else
        !intPart.isEmpty && pyFloatExponent rest

/-- Whether Python `float(s)` succeeds. -/
def pyFloatOk (s : String) : Bool :=
  let cs := pyStripList s.data
  match cs with
  | [] => false
  | c :: rest => if c = '+' || c = '-' then pyFloatBody rest else pyFloatBody cs

/-! ## Association lists: the model of Python `dict`

Python dictionaries preserve insertion order; assignment to an existing
key keeps its position, assignment to a new key appends.  `len(dict)`
corresponds to the list length. -/

/-- Lookup in an ordered association list. -/
def alookup : List (String × String) → String → Option String
  | [], _ => none
  | (k, v) :: rest, key => if k = key then some v else alookup rest key

/-- Python dict assignment `m[k] = v`: update in place or append. -/
def aset : List (String × String) → String → String → List (String × String)
  | [], k, v => [(k, v)]
  | (k0, v0) :: rest, k, v =>
    if k0 = k then (k0, v) :: rest else (k0, v0) :: aset rest k v

theorem alookup_append_left {m : List (String × String)} {k v : String}
    (h : alookup m k = some v) (m' : List (String × String)) :
    alookup (m ++ m') k = some v := by
  induction m with
  | nil => simp [alookup] at h
  | cons p rest ih =>
    obtain ⟨k0, v0⟩ := p
    by_cases hk : k0 = k
    · simp [alookup, hk] at h ⊢; exact h
    · simp [alookup, hk] at h ⊢; exact ih h

theorem aset_eq_of_alookup {m : List (String × String)} {k v : String}
    (h : alookup m k = some v) : aset m k v = m := by
  induction m with
  | nil => simp [alookup] at h
  | cons p rest ih =>
    obtain ⟨k0, v0⟩ := p
    by_cases hk : k0 = k
    · simp [alookup, hk] at h
      simp [aset, hk, h]
    · simp [alookup, hk] at h
      simp [aset, hk, ih h]

theorem alookup_aset_of_ne {m : List (String × String)} {k k' v : String}
    (h : k ≠ k') : alookup (aset m k v) k' = alookup m k' := by
  induction m with
  | nil => simp [aset, alookup, h]
  | cons p rest ih =>
    obtain ⟨k0, v0⟩ := p
    by_cases hk : k0 = k
    · subst hk
      simp [aset, alookup, h]
    · simp [aset, hk, alookup]
      by_cases hk' : k0 = k'
      · simp [hk']
      · simp [hk', ih]

theorem alookup_aset_self (m : List (String × String)) (k v : String) :
    alookup (aset m k v) k = some v := by
  induction m with
  | nil => simp [aset, alookup]
  | cons p rest ih =>
    obtain ⟨k0, v0⟩ := p
    by_cases hk : k0 = k
    · simp [aset, hk, alookup]
    · simp [aset, hk, alookup, ih]

/-! ## Core data models (`sql2sparql/core/models.py`) -/

/-- RDF Triple representation (`models.Triple`). -/
structure Triple where
  subject : String
  predicate : String
  object : String
deriving DecidableEq

/-- Supported aggregate functions (`models.AggregateFunction`). -/
inductive Agg
  | count | sum | avg | min | max
deriving DecidableEq

/-- SQL attribute representation (`models.Attribute`); `aliasName` embeds the
source's `alias` field. -/
structure Attribute where
  relation : String
  name : String
  aliasName : Option String := none
  aggregate : Option Agg := none
deriving DecidableEq

/-- SQL join condition (`models.JoinCondition`). -/
structure JoinCondition where
  left_operand : Attribute
  right_operand : Attribute
  operator : String := "="
deriving DecidableEq

/-- SQL WHERE condition (`models.WhereCondition`); every value produced by the
SQL parser is a string, so `value : String`. -/
structure WhereCondition where
  attr : Attribute
  operator : String
  value : String
  is_join : Bool := false
deriving DecidableEq

/-- Decimal rendering of an integer, Python `str(int)`. -/
def intRepr (n : Int) : String :=
  if n < 0 then "-" ++ natRepr n.natAbs else natRepr n.natAbs

/-! ## Shared URI construction

`_get_predicate_uri` / `_get_type_uri` produce the same string whether or
not a schema mapper is supplied, in all four converters (the insert/delete
converter builds them from `base_uri = "http://example.org/"`). -/

/-- Predicate URI for an attribute name (`_get_predicate_uri`). -/
def predURI (attributeName : String) : String :=
  "<http://example.org/ontology/" ++ attributeName ++ ">"

/-- Type URI for a relation name (`_get_type_uri`, via Python `str.title()`). -/
def typeURI (relationName : String) : String :=
  "<http://example.org/types/" ++ pyTitle relationName ++ ">"

/-! ## SELECT clause converter (`converters/select_converter.py`) -/

/-- Name of an aggregate function (`agg_map`; the `.get(..., "COUNT")`
default is unreachable because every enum member is a key). -/
def aggFuncName : Agg → String
  | .count => "COUNT"
  | .sum => "SUM"
  | .avg => "AVG"
  | .min => "MIN"
  | .max => "MAX"

/-- Aggregate wrapping of a projection variable
(`SelectConverter._apply_aggregate`). -/
def applyAggregate (varName : String) (agg : Agg) (aliasOpt : Option String) : String :=
  let resultAlias := match aliasOpt with
    | some a => "?" ++ a
    | none => varName ++ "_agg"
  "(" ++ aggFuncName agg ++ "(" ++ varName ++ ") AS " ++ resultAlias ++ ")"

/-- First-appearance subject-variable allocation shared by the SELECT and
WHERE converters: `subject_vars[rel] = f"?s{len(subject_vars)}"` on a miss. -/
def allocSubjectVar (m : List (String × String)) (rel : String) :
    String × List (String × String) :=
  match alookup m rel with
  | some v => (v, m)
  | none =>
    let v := "?s" ++ natRepr m.length
    (v, m ++ [(rel, v)])

/-- Loop body of `SelectConverter.convert`, tracking the running attribute
index (`enumerate`) and the per-call `subject_vars` dict. -/
def selectConvertAux :
    List Attribute → Nat → List (String × String) → List String × List Triple
  | [], _, _ => ([], [])
  | attr :: rest, idx, sv =>
    let pa := allocSubjectVar sv attr.relation
    let subjectVar := pa.1
    if strLower attr.name = "subject" then
      let v := match attr.aggregate with
        | some a => applyAggregate subjectVar a attr.aliasName
        | none => subjectVar
      let t : Triple := ⟨subjectVar, "rdf:type", typeURI attr.relation⟩
      let r := selectConvertAux rest (idx + 1) pa.2
      (v :: r.1, t :: r.2)
    else
      let objectVar := "?o" ++ natRepr idx
      let v := match attr.aggregate with
        | some a => applyAggregate objectVar a attr.aliasName
        | none => objectVar
      let t : Triple := ⟨subjectVar, predURI attr.name, objectVar⟩
      let r := selectConvertAux rest (idx + 1) pa.2
      (v :: r.1, t :: r.2)

/-- Embedding of `SelectConverter.convert`: SQL SELECT attributes to SPARQL variables and
triple patterns (fresh local `subject_vars` per call). -/
def selectConvert (attrs : List Attribute) : List String × List Triple :=
  selectConvertAux attrs 0 []

/-! ## WHERE clause converter (`converters/where_converter.py`)

The converter instance carries mutable state across calls
(`subject_vars`, `triple_patterns`, `filter_conditions`); it is threaded
explicitly through `whereConvert`. -/

/-- Mutable instance state of `WhereConverter`. -/
structure WState where
  subjectVars : List (String × String) := []
  triplePatterns : List Triple := []
  filterConditions : List String := []
deriving DecidableEq

/-- Embedding of `WhereConverter._extract_subject_vars`: record each existing pattern's
subject under itself. -/
def extractSubjectVars (m : List (String × String)) (patterns : List Triple) :
    List (String × String) :=
  patterns.foldl (fun acc p => aset acc p.subject p.subject) m

/-- Shared join object variable `f"?join_{len(patterns)}"`. -/
def joinVar (n : Nat) : String :=
  "?join_" ++ natRepr n

/-- Loop of `WhereConverter._process_join_conditions`.  The subject=subject
case appends an equality string to the instance's `filter_conditions` list,
which the tail of `convert` overwrites before returning, so it is never
observable and is not tracked here. -/
def processJoinsGo (m : List (String × String)) (patterns : List Triple) :
    List JoinCondition → List Triple × List (String × String)
  | [] => (patterns, m)
  | jc :: rest =>
    let pl := allocSubjectVar m jc.left_operand.relation
    let pr := allocSubjectVar pl.2 jc.right_operand.relation
    if strLower jc.left_operand.name = "subject" then
      if strLower jc.right_operand.name = "subject" then
        processJoinsGo pr.2 patterns rest
      else
        processJoinsGo pr.2
          (patterns ++ [⟨pr.1, predURI jc.right_operand.name, pl.1⟩]) rest
    else if strLower jc.right_operand.name = "subject" then
      processJoinsGo pr.2
        (patterns ++ [⟨pl.1, predURI jc.left_operand.name, pr.1⟩]) rest
    else
      let shared := joinVar patterns.length
      processJoinsGo pr.2
        (patterns ++ [⟨pl.1, predURI jc.left_operand.name, shared⟩,
                      ⟨pr.1, predURI jc.right_operand.name, shared⟩]) rest

/-- Operator table of `WhereConverter._build_filter_expression`. -/
def wcOperatorMap (op : String) : Option String :=
  if op = "=" then some "="
  else if op = "!=" then some "!="
  else if op = "<>" then some "!="
  else if op = "<" then some "<"
  else if op = ">" then some ">"
  else if op = "<=" then some "<="
  else if op = ">=" then some ">="
  else if op = "LIKE" then some "regex"
  else none

/-- Embedding of `WhereConverter._build_filter_expression` for the string values the SQL
parser supplies: numeric-looking strings stay bare, others are quoted; LIKE
becomes a case-insensitive regex with `%` and `_` translated. -/
def buildFilterExpression (varName : String) (op value : String) : String :=
  let valueStr := if pyFloatOk value then value else "\"" ++ value ++ "\""
  let sparqlOp := match wcOperatorMap (strUpper op) with
    | some o => o
    | none => op
  if sparqlOp = "regex" then
    let pat := pyReplaceChar (pyReplaceChar value '%' ".*") '_' "."
    "regex(" ++ varName ++ ", \"" ++ pat ++ "\", \"i\")"
  else
    varName ++ " " ++ sparqlOp ++ " " ++ valueStr

/-- Loop of `WhereConverter._process_boolean_conditions`. -/
def processBoolsGo (m : List (String × String)) :
    List WhereCondition → (List Triple × List String) × List (String × String)
  | [] => (([], []), m)
  | cond :: rest =>
    let pa := allocSubjectVar m cond.attr.relation
    let subjectVar := pa.1
    if strLower cond.attr.name = "subject" then
      let f := buildFilterExpression subjectVar cond.operator cond.value
      let pats := if cond.attr.relation ≠ "" then
          [(⟨subjectVar, "rdf:type", typeURI cond.attr.relation⟩ : Triple)]
        else []
      let r := processBoolsGo pa.2 rest
      ((pats ++ r.1.1, f :: r.1.2), r.2)
    else
      let objectVar := "?" ++ cond.attr.name ++ "_value"
      let t : Triple := ⟨subjectVar, predURI cond.attr.name, objectVar⟩
      let f := buildFilterExpression objectVar cond.operator cond.value
      let r := processBoolsGo pa.2 rest
      ((t :: r.1.1, f :: r.1.2), r.2)

/-- Embedding of `WhereConverter.convert`: join conditions then boolean conditions over the
shared instance state; early return when both lists are empty (the instance's
pattern/filter caches are only overwritten on the non-empty path). -/
def whereConvert (joins : List JoinCondition) (conds : List WhereCondition)
    (existing : List Triple) (st : WState) :
    (List Triple × List String) × WState :=
  let m1 := if existing.isEmpty then st.subjectVars
            else extractSubjectVars st.subjectVars existing
  let pj := processJoinsGo m1 [] joins
  let pb := processBoolsGo pj.2 conds
  let additional := pj.1 ++ pb.1.1
  let filters := pb.1.2
  if joins.isEmpty && conds.isEmpty then
    ((existing, []), { st with subjectVars := m1 })
  else
    ((additional, filters), ⟨pb.2, additional, filters⟩)

/-! ## INSERT/DELETE converter (`converters/insert_delete_converter.py`) -/

/-- Python values that can appear as an insert value.  The SQL parser only
ever produces strings, but `_format_value` accepts any value. -/
inductive PyVal
  | pstr (s : String)
  | pint (n : Int)
  | pbool (b : Bool)
  | pnone
deriving DecidableEq

/-- Embedding of `InsertDeleteConverter._format_value`.  The branch order mirrors the
source: None, URI-shaped string, `isinstance(value, (int, float))` — which in
Python also captures `bool`, so the later lowercase-boolean branch is dead
code and `True` renders as `"True"` — numeric-looking string, then quoted
string with escaped quotes/newlines/carriage returns. -/
def formatValue : PyVal → String
  | .pnone => "\"\""
  | .pint n => intRepr n
  | .pbool b => if b then "True" else "False"
  | .pstr s =>
    if listStartsWith s.data "http://".data || listStartsWith s.data "https://".data then
      "<" ++ s ++ ">"
    else if pyFloatOk s then s
    else
      "\"" ++
        pyReplaceChar (pyReplaceChar (pyReplaceChar s '"' "\\\"") '\n' "\\n")
          '\x0d' "\\r" ++ "\""

/-- Embedding of `InsertDeleteConverter._generate_subject_uri` with the random
`uuid.uuid4().hex[:8]` draw made an explicit `entityId` input. -/
def generateSubjectURI (tableName entityId : String) : String :=
  "http://example.org/" ++ tableName ++ "/" ++ entityId

/-- Embedding of `InsertDeleteConverter.convert_insert`: one type triple, then one property
triple per column/value pair, skipping a `subject` column. -/
def convertInsert (tableName : String) (values : List (String × PyVal))
    (entityId : String) : List Triple :=
  let subjectURI := "<" ++ generateSubjectURI tableName entityId ++ ">"
  let typeTriple : Triple := ⟨subjectURI, "rdf:type", typeURI tableName⟩
  typeTriple ::
    (values.filter (fun p => strLower p.1 ≠ "subject")).map
      (fun p => (⟨subjectURI, predURI p.1, formatValue p.2⟩ : Triple))

/-! ## GROUP BY / HAVING converter (`converters/group_having_converter.py`) -/

/-- Mutable instance state of `GroupHavingConverter` (its `subject_vars`). -/
structure GHState where
  subjectVars : List (String × String) := []
deriving DecidableEq

/-- Embedding of `GroupHavingConverter._extract_subject_vars`: only subjects that start
with `?s` are recorded. -/
def ghExtractSubjectVars (m : List (String × String)) (patterns : List Triple) :
    List (String × String) :=
  patterns.foldl
    (fun acc p =>
      if listStartsWith p.subject.data "?s".data then aset acc p.subject p.subject
      else acc) m

/-- Embedding of `GroupHavingConverter._get_subject_var`: returns the first stored value
when the dict is non-empty (its `for var in values(): return var` loop),
otherwise allocates `?s{len}` for the relation. -/
def ghGetSubjectVar (m : List (String × String)) (relation : String) :
    String × List (String × String) :=
  match m with
  | (_, v) :: _ => (v, m)
  | [] =>
    let v := "?s" ++ natRepr 0
    (v, [(relation, v)])

/-- Embedding of `GroupHavingConverter._pattern_exists` on subject and predicate. -/
def patternExistsSP (patterns : List Triple) (subject predicate : String) : Bool :=
  patterns.any (fun p => p.subject = subject && p.predicate = predicate)

/-- Embedding of `GroupHavingConverter._find_object_var`. -/
def findObjectVar (patterns : List Triple) (subject predicate : String) :
    Option String :=
  (patterns.find? (fun p => p.subject = subject && p.predicate = predicate)).map
    (·.object)

/-- Python `var.lstrip("?")`. -/
def lstripQm (s : String) : String :=
  String.mk (s.data.dropWhile (· = '?'))

/-- First loop of `_find_select_var_for_attribute`: the first select pattern
whose predicate contains the attribute name (with a valid index) wins. -/
def fsvByPredicate (i : Nat) (patterns : List Triple) (vars : List String)
    (nm : String) : Option String :=
  match patterns with
  | [] => none
  | p :: ps =>
    if p.predicate ≠ "" && strContains p.predicate nm && i < vars.length then
      vars.get? i
    else
      fsvByPredicate (i + 1) ps vars nm

/-- Embedding of `GroupHavingConverter._find_select_var_for_attribute`: predicate-identity
match first, then the variable-name heuristic. -/
def findSelectVarForAttribute (attr : Attribute) (selectVars : List String)
    (selectPatterns : List Triple) : Option String :=
  match fsvByPredicate 0 selectPatterns selectVars attr.name with
  | some v => some v
  | none =>
    selectVars.find?
      (fun v => strContains (strLower (lstripQm v)) (strLower attr.name))

/-- Loop of `GroupHavingConverter.convert_group_by`:
reuse a select variable when one matches, otherwise reuse an existing pattern's
object variable, otherwise allocate `?{name}_group` with a supporting triple. -/
def convertGroupByGo (m : List (String × String)) (existing : List Triple)
    (selectVars : List String) (selectPatterns : List Triple) :
    List Attribute → (List String × List Triple) × List (String × String)
  | [] => (([], []), m)
  | attr :: rest =>
    let pv := ghGetSubjectVar m attr.relation
    let subjectVar := pv.1
    if strLower attr.name = "subject" then
      let addl := if !patternExistsSP existing subjectVar "rdf:type" then
          [(⟨subjectVar, "rdf:type", typeURI attr.relation⟩ : Triple)]
        else []
      let r := convertGroupByGo pv.2 existing selectVars selectPatterns rest
      ((subjectVar :: r.1.1, addl ++ r.1.2), r.2)
    else
      let fromSelect := if selectVars.isEmpty then none
        else findSelectVarForAttribute attr selectVars selectPatterns
      match fromSelect with
      | some v =>
        let r := convertGroupByGo pv.2 existing selectVars selectPatterns rest
        ((v :: r.1.1, r.1.2), r.2)
      | none =>
        let predicateURI := predURI attr.name
        if !patternExistsSP existing subjectVar predicateURI then
          let objectVar := "?" ++ attr.name ++ "_group"
          let pat : Triple := ⟨subjectVar, predicateURI, objectVar⟩
          let r := convertGroupByGo pv.2 existing selectVars selectPatterns rest
          ((objectVar :: r.1.1, pat :: r.1.2), r.2)
        else
          let objectVar := match findObjectVar existing subjectVar predicateURI with
            | some o => if o = "" then "?" ++ attr.name ++ "_group" else o
            | none => "?" ++ attr.name ++ "_group"
          let r := convertGroupByGo pv.2 existing selectVars selectPatterns rest
          ((objectVar :: r.1.1, r.1.2), r.2)

/-- Embedding of `GroupHavingConverter.convert_group_by` over the threaded instance state. -/
def convertGroupBy (attrs : List Attribute) (existing : List Triple)
    (selectVars : List String) (selectPatterns : List Triple) (st : GHState) :
    (List String × List Triple) × GHState :=
  let m0 := if existing.isEmpty then st.subjectVars
            else ghExtractSubjectVars st.subjectVars existing
  let r := convertGroupByGo m0 existing selectVars selectPatterns attrs
  (r.1, ⟨r.2⟩)

/-- Embedding of `GroupHavingConverter._build_aggregate_expr`; again the `.get(..., "COUNT")`
default is unreachable because the argument is already an enum member. -/
def buildAggregateExpr (varName : String) (agg : Agg) : String :=
  aggFuncName agg ++ "(" ++ varName ++ ")"

/-- Model of `re.search(r"\?(\w+)", s).group(0)`: the first `?` followed by at
least one word character, returned together with its word-character run. -/
def searchVarToken : List Char → Option String
  | [] => none
  | c :: rest =>
    if c = '?' then
      let run := rest.takeWhile isWordChar
      if run.isEmpty then searchVarToken rest
      else some (String.mk ('?' :: run))
    else searchVarToken rest

/-- Loop of `GroupHavingConverter.convert_having`.  A condition whose
attribute has no aggregate tag is skipped entirely. -/
def convertHavingGo (m : List (String × String)) (existing : List Triple)
    (selectVars : List String) (selectPatterns : List Triple) :
    List WhereCondition → List String × List (String × String)
  | [] => ([], m)
  | cond :: rest =>
    let pv := ghGetSubjectVar m cond.attr.relation
    let subjectVar := pv.1
    match cond.attr.aggregate with
    | none => convertHavingGo pv.2 existing selectVars selectPatterns rest
    | some agg =>
      let aggExpr :=
        if strLower cond.attr.name = "subject" then
          buildAggregateExpr subjectVar agg
        else
          let fromSelect := if selectVars.isEmpty then none
            else findSelectVarForAttribute cond.attr selectVars selectPatterns
          let resolved := match fromSelect with
            | some v => some v
            | none => findObjectVar existing subjectVar (predURI cond.attr.name)
          let objectVar := match resolved with
            | some v => if v = "" then "?" ++ cond.attr.name ++ "_having" else v
            | none => "?" ++ cond.attr.name ++ "_having"
          if strContains objectVar "AS" && strContains objectVar "(" then
            let baseVar := match searchVarToken objectVar.data with
              | some b => b
              | none => objectVar
            buildAggregateExpr baseVar agg
          else
            buildAggregateExpr objectVar agg
      let expr := aggExpr ++ " " ++ cond.operator ++ " " ++ cond.value
      let r := convertHavingGo pv.2 existing selectVars selectPatterns rest
      (expr :: r.1, r.2)

/-- Embedding of `GroupHavingConverter.convert_having` over the threaded instance state. -/
def convertHaving (conds : List WhereCondition) (existing : List Triple)
    (selectVars : List String) (selectPatterns : List Triple) (st : GHState) :
    List String × GHState :=
  let m0 := if existing.isEmpty then st.subjectVars
            else ghExtractSubjectVars st.subjectVars existing
  let r := convertHavingGo m0 existing selectVars selectPatterns conds
  (r.1, ⟨r.2⟩)

/-! ## Query records (`core/models.py`) -/

/-- SQL query types (`models.QueryType`). -/
inductive QueryType
  | select | insert | delete | update
deriving DecidableEq

/-- SQL combination operators (`models.CombinationType`). -/
inductive CombinationType
  | union | intersect | except
deriving DecidableEq

/-- Parsed SQL query representation (`models.SQLQuery`).  The parser sets
`combination_type` but never populates the nested branch queries, so the
branches are omitted. -/
structure SQLQuery where
  type : QueryType := .select
  select_attributes : List Attribute := []
  from_tables : List String := []
  where_conditions : List WhereCondition := []
  join_conditions : List JoinCondition := []
  group_by : List Attribute := []
  having : List WhereCondition := []
  order_by : List (Attribute × String) := []
  limit : Option Nat := none
  offset : Option Nat := none
  insert_table : Option String := none
  insert_values : List (String × PyVal) := []
  delete_table : Option String := none
  combination_type : Option CombinationType := none
deriving DecidableEq

/-- SPARQL query representation (`models.SPARQLQuery`). -/
structure SPARQLQuery where
  select_vars : List String := []
  where_patterns : List Triple := []
  filter_conditions : List String := []
  group_by_vars : List String := []
  having_conditions : List String := []
  order_by_vars : List (String × String) := []
  limit : Option Nat := none
  offset : Option Nat := none
  insert_triples : List Triple := []
  delete_patterns : List Triple := []
deriving DecidableEq

/-- Embedding of `Triple.to_sparql_pattern`. -/
def tripleToPattern (t : Triple) : String :=
  t.subject ++ " " ++ t.predicate ++ " " ++ t.object

/-- Python truthiness of the optional limit/offset integers: `if self.limit:`
is false both for `None` and for `0`. -/
def natOptTruthy : Option Nat → Bool
  | some n => n ≠ 0
  | none => false

/-- LIMIT/OFFSET tail of `SPARQLQuery._build_select_query`: the clauses are
emitted only when the stored value is truthy (present and nonzero). -/
def limitOffsetParts (limit offset : Option Nat) : List String :=
  (if natOptTruthy limit then ["LIMIT " ++ natRepr (limit.getD 0)] else []) ++
  (if natOptTruthy offset then ["OFFSET " ++ natRepr (offset.getD 0)] else [])

/-- Clause list built by `SPARQLQuery._build_select_query` before joining. -/
def buildSelectParts (q : SPARQLQuery) : List String :=
  let selectClause := "SELECT " ++ String.intercalate " " q.select_vars
  let whereClause :=
    "WHERE \x7b\n" ++
    String.join (q.where_patterns.map (fun p => "  " ++ tripleToPattern p ++ " .\n")) ++
    String.join (q.filter_conditions.map (fun f => "  FILTER(" ++ f ++ ")\n")) ++
    "\x7d"
  [selectClause, whereClause] ++
  (if q.group_by_vars.isEmpty then []
   else ["GROUP BY " ++ String.intercalate " " q.group_by_vars]) ++
  (if q.having_conditions.isEmpty then []
   else ["HAVING(" ++ String.intercalate " && " q.having_conditions ++ ")"]) ++
  (if q.order_by_vars.isEmpty then []
   else ["ORDER BY " ++ String.intercalate " "
          (q.order_by_vars.map (fun p => p.2 ++ "(" ++ p.1 ++ ")"))]) ++
  limitOffsetParts q.limit q.offset

/-- Embedding of `SPARQLQuery._build_select_query`. -/
def buildSelectQuery (q : SPARQLQuery) : String :=
  String.intercalate "\n" (buildSelectParts q)

/-- Embedding of `SPARQLQuery._build_insert_query`. -/
def buildInsertQuery (q : SPARQLQuery) : String :=
  "INSERT DATA \x7b\n" ++
  String.join (q.insert_triples.map (fun t => "  " ++ tripleToPattern t ++ " .\n")) ++
  "\x7d"

/-- Embedding of `SPARQLQuery._build_delete_query`. -/
def buildDeleteQuery (q : SPARQLQuery) : String :=
  "DELETE \x7b\n" ++
  String.join (q.delete_patterns.map (fun t => "  " ++ tripleToPattern t ++ " .\n")) ++
  "\x7d\n" ++
  "WHERE \x7b\n" ++
  String.join (q.where_patterns.map (fun t => "  " ++ tripleToPattern t ++ " .\n")) ++
  String.join (q.filter_conditions.map (fun f => "  FILTER(" ++ f ++ ")\n")) ++
  "\x7d"

/-- Embedding of `SPARQLQuery.to_string` dispatch on populated mutation lists. -/
def sparqlToString (q : SPARQLQuery) : String :=
  if !q.insert_triples.isEmpty then buildInsertQuery q
  else if !q.delete_patterns.isEmpty then buildDeleteQuery q
  else buildSelectQuery q

/-! ## DELETE conversion (`InsertDeleteConverter.convert_delete`) -/

/-- Embedding of `InsertDeleteConverter._build_filter_expression`: values are formatted via
`_format_value`; LIKE becomes a case-insensitive regex. -/
def idcBuildFilterExpression (varName op value : String) : String :=
  let formatted := formatValue (.pstr value)
  let sparqlOp := match wcOperatorMap (strUpper op) with
    | some o => o
    | none => op
  if sparqlOp = "regex" then
    let pat := pyReplaceChar (pyReplaceChar value '%' ".*") '_' "."
    "regex(" ++ varName ++ ", \"" ++ pat ++ "\", \"i\")"
  else
    varName ++ " " ++ sparqlOp ++ " " ++ formatted

/-- Loop of `convert_delete` over the WHERE conditions. -/
def convertDeleteGo (subjectVar : String) :
    List WhereCondition → List Triple × List Triple × List String
  | [] => ([], [], [])
  | cond :: rest =>
    let r := convertDeleteGo subjectVar rest
    if strLower cond.attr.name = "subject" then
      let f := idcBuildFilterExpression subjectVar cond.operator cond.value
      ((⟨subjectVar, "?p", "?o"⟩ : Triple) :: r.1, r.2.1, f :: r.2.2)
    else
      let objectVar := "?" ++ cond.attr.name ++ "_del"
      let p := predURI cond.attr.name
      let f := idcBuildFilterExpression objectVar cond.operator cond.value
      ((⟨subjectVar, p, objectVar⟩ : Triple) :: r.1,
       (⟨subjectVar, p, objectVar⟩ : Triple) :: r.2.1, f :: r.2.2)

/-- Embedding of `InsertDeleteConverter.convert_delete`: always a type guard in WHERE; a
wildcard delete with no conditions, otherwise per-condition delete patterns
plus the type triple. -/
def convertDelete (tableName : String) (conds : List WhereCondition) :
    List Triple × List Triple × List String :=
  let subjectVar := "?s0"
  let typePattern : Triple := ⟨subjectVar, "rdf:type", typeURI tableName⟩
  if conds.isEmpty then
    ([⟨subjectVar, "?p", "?o"⟩, typePattern], [typePattern], [])
  else
    let r := convertDeleteGo subjectVar conds
    (r.1 ++ [typePattern], typePattern :: r.2.1, r.2.2)

/-! ## Orchestration (`SQL2SPARQLConverter._convert_query` and helpers) -/

/-- Embedding of `SQL2SPARQLConverter._pattern_exists` (full subject/predicate/object). -/
def patternExistsFull (ps : List Triple) (t : Triple) : Bool :=
  ps.any (fun p => p.subject = t.subject && p.predicate = t.predicate &&
                   p.object = t.object)

/-- Append only patterns not already present (the dedup loops of
`_convert_select_query`). -/
def dedupAppend (acc : List Triple) (new : List Triple) : List Triple :=
  new.foldl (fun a p => if patternExistsFull a p then a else a ++ [p]) acc

/-- Embedding of `SQL2SPARQLConverter._find_variable_for_attribute`: first `?o`-variable,
else the first select variable. -/
def findVariableForAttribute (selectVars : List String) : Option String :=
  match selectVars.find? (fun v => listStartsWith v.data "?o".data) with
  | some v => some v
  | none => selectVars.head?

/-- Combined converter-instance state threaded through a conversion. -/
structure ConvState where
  whereSt : WState := {}
  ghSt : GHState := {}
deriving DecidableEq

/-- Embedding of `SQL2SPARQLConverter._convert_select_query`. -/
def convertSelectQuery (q : SQLQuery) (st : ConvState) : SPARQLQuery × ConvState :=
  let sc := selectConvert q.select_attributes
  let selectVars := sc.1
  let selectPatterns := sc.2
  let stepW :=
    if !q.join_conditions.isEmpty || !q.where_conditions.isEmpty then
      let wr := whereConvert q.join_conditions q.where_conditions selectPatterns st.whereSt
      (dedupAppend selectPatterns wr.1.1, wr.1.2, wr.2)
    else
      (selectPatterns, [], st.whereSt)
  let wherePats1 := stepW.1
  let filters := stepW.2.1
  let stepG :=
    if !q.group_by.isEmpty then
      let gr := convertGroupBy q.group_by wherePats1 selectVars selectPatterns st.ghSt
      (gr.1.1, dedupAppend wherePats1 gr.1.2, gr.2)
    else
      ([], wherePats1, st.ghSt)
  let groupVars := stepG.1
  let wherePats2 := stepG.2.1
  let stepH :=
    if !q.having.isEmpty then
      convertHaving q.having wherePats2 selectVars selectPatterns stepG.2.2
    else
      ([], stepG.2.2)
  let orderVars := q.order_by.foldl
    (fun acc p =>
      match findVariableForAttribute selectVars with
      | some v => if v = "" then acc else acc ++ [(v, p.2)]
      | none => acc) []
  ({ select_vars := selectVars,
     where_patterns := wherePats2,
     filter_conditions := filters,
     group_by_vars := groupVars,
     having_conditions := stepH.1,
     order_by_vars := orderVars,
     limit := q.limit,
     offset := q.offset },
   { whereSt := stepW.2.2, ghSt := stepH.2 })

/-- Embedding of `SQL2SPARQLConverter._convert_query`: dispatch on the query type.  The
`entityId` input models the `uuid.uuid4().hex[:8]` draw made by an INSERT
conversion.  The combination branch of the source is vacuous because the
parser never populates the nested branch queries. -/
def convertQuery (q : SQLQuery) (entityId : String) (st : ConvState) :
    SPARQLQuery × ConvState :=
  match q.type with
  | .select => convertSelectQuery q st
  | .insert =>
    let triples := match q.insert_table with
      | some t => convertInsert t q.insert_values entityId
      | none => []
    ({ insert_triples := triples }, st)
  | .delete =>
    let r := match q.delete_table with
      | some t => convertDelete t q.where_conditions
      | none => ([], [], [])
    ({ delete_patterns := r.1, where_patterns := r.2.1,
       filter_conditions := r.2.2 }, st)
  | .update => ({}, st)

/-! ## Parser scanners and regex matchers (`parsers/sql_parser.py`)

The source's regular expressions are hand-compiled into explicit character
scanners with Python `re` semantics (greedy runs, ordered alternation,
prefix matching for `re.match`). -/

/-- Consume a maximal non-empty run of characters satisfying `p`. -/
def takeWhile1 (p : Char → Bool) (cs : List Char) : Option (List Char × List Char) :=
  let t := cs.takeWhile p
  if t.isEmpty then none else some (t, cs.drop t.length)

/-- Expect a specific next character. -/
def expectChar (c : Char) : List Char → Option (List Char)
  | x :: rest => if x = c then some rest else none
  | [] => none

/-- Consume a literal case-insensitively, returning the remainder. -/
def litCI : List Char → List Char → Option (List Char)
  | [], rest => some rest
  | _ :: _, [] => none
  | l :: ls, c :: cs => if c.toUpper = l.toUpper then litCI ls cs else none

/-- Consume a maximal run of at least one whitespace character (`\s+`). -/
def wsRun1 : List Char → Option (List Char)
  | c :: rest => if pyIsSpace c then some (rest.dropWhile pyIsSpace) else none
  | [] => none

/-- Whitespace skip (`\s*`). -/
def skipWsL (cs : List Char) : List Char :=
  cs.dropWhile pyIsSpace

/-- Python `str.rstrip(chars)`. -/
def pyRstripChars (set : List Char) (s : String) : String :=
  String.mk ((s.data.reverse.dropWhile (set.contains ·)).reverse)

/-- Python `str.rstrip()` (whitespace). -/
def pyRstrip (s : String) : String :=
  String.mk ((s.data.reverse.dropWhile pyIsSpace).reverse)

/-- Fuel-driven loop of the substring replacement. -/
def replaceSubGo (pat rep : List Char) : Nat → List Char → List Char
  | 0, hay => hay
  | _ + 1, [] => []
  | fuel + 1, h :: t =>
    if listStartsWith (h :: t) pat then
      rep ++ replaceSubGo pat rep fuel ((h :: t).drop pat.length)
    else
      h :: replaceSubGo pat rep fuel t

/-- General non-overlapping substring replacement (Python `str.replace`). -/
def replaceSubList (pat rep hay : List Char) : List Char :=
  match pat with
  | [] => hay
  | _ :: _ => replaceSubGo pat rep (hay.length + 1) hay

/-- Python `s.replace(pat, rep)` for multi-character patterns. -/
def pyReplaceSub (s pat rep : String) : String :=
  String.mk (replaceSubList pat.data rep.data s.data)

/-- Numeric value of a digit string (Python `int` on an `isdigit` string). -/
def strToNat (s : String) : Nat :=
  digitsVal s.data

/-- Word-or-dot character, the `[\w.]` class. -/
def isWordDotChar (c : Char) : Bool :=
  isWordChar c || c = '.'

/-- Operator characters, the `[=<>!]` class. -/
def isOpChar (c : Char) : Bool :=
  c = '=' || c = '<' || c = '>' || c = '!'

/-- The `.+` group: at least one non-newline character, maximal. -/
def restGroup (cs : List Char) : Option String :=
  let t := cs.takeWhile (· ≠ '\n')
  if t.isEmpty then none else some (String.mk t)

/-- Separator matcher for the regex `\s+KW\s+` (case-insensitive keyword):
returns the remainder after the separator. -/
def matchKwSep (kw : List Char) (cs : List Char) : Option (List Char) :=
  match cs with
  | c :: _ =>
    if pyIsSpace c then
      match litCI kw (skipWsL cs) with
      | some r =>
        match r with
        | c2 :: _ => if pyIsSpace c2 then some (skipWsL r) else none
        | [] => none
      | none => none
    else none
  | [] => none

/-- Splitter for `re.split(r"\s+KW\s+", s, flags=IGNORECASE)`. -/
def splitKwSepGo (kw : List Char) : Nat → List Char → List Char → List String
  | 0, cs, cur => [String.mk (cur.reverse ++ cs)]
  | _ + 1, [], cur => [String.mk cur.reverse]
  | fuel + 1, c :: rest, cur =>
    match matchKwSep kw (c :: rest) with
    | some r => String.mk cur.reverse :: splitKwSepGo kw fuel r []
    | none => splitKwSepGo kw fuel rest (c :: cur)

/-- Split a string on a case-insensitive whitespace-delimited keyword. -/
def splitKwSep (kw : String) (s : String) : List String :=
  splitKwSepGo kw.data (s.data.length + 1) s.data []

/-- Join-condition matcher `(\w+)\.(\w+)\s*(=)\s*(\w+)\.(\w+)` of
`_parse_conditions` (a prefix match; trailing text is ignored). -/
def joinMatch (cs : List Char) : Option (String × String × String × String) := do
  let (w1, r1) ← takeWhile1 isWordChar cs
  let r2 ← expectChar '.' r1
  let (w2, r3) ← takeWhile1 isWordChar r2
  let r4 ← expectChar '=' (skipWsL r3)
  let (w3, r6) ← takeWhile1 isWordChar (skipWsL r4)
  let r7 ← expectChar '.' r6
  let (w4, _) ← takeWhile1 isWordChar r7
  some (String.mk w1, String.mk w2, String.mk w3, String.mk w4)

/-- Expression-condition matcher `(\([^)]+\))\s*([=<>!]+)\s*(.+)` of
`_parse_conditions`. -/
def exprMatch (cs : List Char) : Option (String × String × String) := do
  let r1 ← expectChar '(' cs
  let (content, r2) ← takeWhile1 (· ≠ ')') r1
  let r3 ← expectChar ')' r2
  let (ops, r5) ← takeWhile1 isOpChar (skipWsL r3)
  let value ← restGroup (skipWsL r5)
  some (String.mk ('(' :: content ++ [')']), String.mk ops, value)

/-- Operator alternation
`[=<>!]+|LIKE|IN|BETWEEN|NOT\s+IN|NOT\s+BETWEEN` (case-insensitive, in the
source's order); returns the matched text and the remainder. -/
def compOpAlt (cs : List Char) : Option (String × List Char) :=
  match takeWhile1 isOpChar cs with
  | some (ops, r) => some (String.mk ops, r)
  | none =>
    match litCI "LIKE".data cs with
    | some r => some (String.mk (cs.take 4), r)
    | none =>
      match litCI "IN".data cs with
      | some r => some (String.mk (cs.take 2), r)
      | none =>
        match litCI "BETWEEN".data cs with
        | some r => some (String.mk (cs.take 7), r)
        | none =>
          match litCI "NOT".data cs with
          | some r1 =>
            match wsRun1 r1 with
            | some r2 =>
              let wsLen := r1.length - r2.length
              match litCI "IN".data r2 with
              | some r3 => some (String.mk (cs.take (3 + wsLen + 2)), r3)
              | none =>
                match litCI "BETWEEN".data r2 with
                | some r3 => some (String.mk (cs.take (3 + wsLen + 7)), r3)
                | none => none
            | none => none
          | none => none

/-- Attempt of the comparison matcher with column prefix length `k`
(Python's greedy `[\w.]+` with backtracking tries the longest first). -/
def compTryLen (colFull rest : List Char) (k : Nat) :
    Option (String × String × String) := do
  let col := colFull.take k
  let tail := colFull.drop k ++ rest
  let (op, r1) ← compOpAlt (skipWsL tail)
  let value ← restGroup (skipWsL r1)
  some (String.mk col, op, value)

/-- Backtracking loop over column prefix lengths, longest first. -/
def compTryLens (colFull rest : List Char) : Nat → Option (String × String × String)
  | 0 => none
  | k + 1 =>
    match compTryLen colFull rest (k + 1) with
    | some r => some r
    | none => compTryLens colFull rest k

/-- Comparison matcher
`([\w.]+)\s*([=<>!]+|LIKE|IN|BETWEEN|NOT\s+IN|NOT\s+BETWEEN)\s*(.+)` of
`_parse_conditions`. -/
def compMatch (cs : List Char) : Option (String × String × String) := do
  let (colFull, rest) ← takeWhile1 isWordDotChar cs
  compTryLens colFull rest colFull.length

/-- Value cleanup of `_parse_conditions`:
`.strip().strip("'\"").rstrip(';')`. -/
def condValueClean (v : String) : String :=
  pyRstripChars [';'] (pyStripChars ['\x27', '"'] (pyStrip v))

/-- Split a dotted attribute reference without stripping
(the `_parse_conditions` variant). -/
def attrOfDotted (s : String) : Attribute :=
  if strContains s "." then
    let parts := pySplitChar '.' s
    { relation := parts.getD 0 "", name := parts.getD 1 "" }
  else
    { relation := "", name := s }

/-- Embedding of `SQLParser._parse_conditions`: split on AND, then classify each conjunct
as join condition, parenthesised expression condition, or plain comparison. -/
def parseConditions (conditionStr : String) (q : SQLQuery) : SQLQuery :=
  (splitKwSep "AND" conditionStr).foldl
    (fun q c =>
      let c := pyStrip c
      if c = "" then q
      else
        match joinMatch c.data with
        | some (lt, la, rt, ra) =>
          { q with join_conditions := q.join_conditions ++
              [⟨{ relation := lt, name := la }, { relation := rt, name := ra }, "="⟩] }
        | none =>
          match exprMatch c.data with
          | some (e, op, v) =>
            { q with where_conditions := q.where_conditions ++
                [⟨{ relation := "", name := e }, op, condValueClean v, false⟩] }
          | none =>
            match compMatch c.data with
            | some (a, op, v) =>
              { q with where_conditions := q.where_conditions ++
                  [⟨attrOfDotted a, op, condValueClean v, false⟩] }
            | none => q) q

/-- Lookup in the parser's `aggregate_map` (uppercase keys). -/
def aggregateMapGet (s : String) : Option Agg :=
  if s = "COUNT" then some .count
  else if s = "SUM" then some .sum
  else if s = "AVG" then some .avg
  else if s = "MIN" then some .min
  else if s = "MAX" then some .max
  else none

/-- HAVING matcher `(\w+)\s*\(\s*([\w.]+)\s*\)\s*([=<>!]+)\s*(.+)` of
`_parse_having_conditions`. -/
def havingMatch (cs : List Char) : Option (String × String × String × String) := do
  let (func, r1) ← takeWhile1 isWordChar cs
  let r3 ← expectChar '(' (skipWsL r1)
  let (attr, r5) ← takeWhile1 isWordDotChar (skipWsL r3)
  let r7 ← expectChar ')' (skipWsL r5)
  let (ops, r9) ← takeWhile1 isOpChar (skipWsL r7)
  let value ← restGroup (skipWsL r9)
  some (String.mk func, String.mk attr, String.mk ops, value)

/-- Embedding of `SQLParser._parse_having_conditions`: an unknown aggregate function name
is looked up with `aggregate_map.get`, yielding no aggregate tag; the
condition is still appended.  On no match nothing is added. -/
def parseHavingConditions (conditionStr : String) (q : SQLQuery) : SQLQuery :=
  match havingMatch conditionStr.data with
  | some (func, attrStr, op, value) =>
    let agg := aggregateMapGet (strUpper func)
    let attr := attrOfDotted attrStr
    { q with having := q.having ++
        [⟨{ attr with aggregate := agg }, op, pyStrip value, false⟩] }
  | none => q

/-! ## Token-level clause parsers (`SQLParser`) -/

/-- Punctuation characters that `sqlparse` yields as single tokens here. -/
def punctTokChar (c : Char) : Bool :=
  c = ',' || c = ';' || c = '(' || c = ')'

/-- Character of an ordinary (non-whitespace, non-punctuation) token. -/
def plainTokChar (c : Char) : Bool :=
  !pyIsSpace c && !punctTokChar c

/-- Tokenisation step of the pipeline.  Modelled from the external `sqlparse`
library: for the plain single-statement queries handled in this development,
`flatten()` yields whitespace runs as Whitespace tokens (the parser's
`token.is_whitespace` guards), the punctuation marks `,;()` as
single-character tokens, maximal other runs as word tokens, and — per the
keyword rules `GROUP\s+BY` and `ORDER\s+BY` of sqlparse's lexer — a
`GROUP`/`ORDER` word directly followed by whitespace and `BY` as one single
keyword token containing that whitespace. -/
def tokenizeGo : Nat → List Char → List String
  | 0, _ => []
  | _ + 1, [] => []
  | fuel + 1, c :: rest =>
    if pyIsSpace c then
      let run := (c :: rest).takeWhile pyIsSpace
      String.mk run :: tokenizeGo fuel ((c :: rest).drop run.length)
    else if punctTokChar c then
      String.mk [c] :: tokenizeGo fuel rest
    else
      let run := (c :: rest).takeWhile plainTokChar
      let after := (c :: rest).drop run.length
      if strUpper (String.mk run) = "GROUP" || strUpper (String.mk run) = "ORDER" then
        let ws := after.takeWhile pyIsSpace
        let after2 := after.drop ws.length
        let run2 := after2.takeWhile plainTokChar
        if !ws.isEmpty && strUpper (String.mk run2) = "BY" then
          String.mk (run ++ ws ++ run2) :: tokenizeGo fuel (after2.drop run2.length)
        else
          String.mk run :: tokenizeGo fuel after
      else
        String.mk run :: tokenizeGo fuel after

/-- Token stream of a query text (model of `sqlparse` `flatten()`). -/
def tokenizeModel (s : String) : List String :=
  tokenizeGo (s.data.length + 1) s.data

/-- Model of `token.is_whitespace`: a token consisting of whitespace. -/
def isWsToken (t : String) : Bool :=
  !t.data.isEmpty && t.data.all pyIsSpace

/-- Last-character test used for the `condition_str[-1] in '(,'` checks. -/
def lastCharIs (s : String) (set : List Char) : Bool :=
  match s.data.getLast? with
  | some c => set.contains c
  | none => false

/-- Aggregate-call matcher `NAME\s*\(\s*([^)]+)\s*\)` (case-insensitive),
returning the stripped group. -/
def aggCallMatch (name : String) (cs : List Char) : Option String := do
  let r1 ← litCI name.data cs
  let r2 ← expectChar '(' (skipWsL r1)
  let (content, r3) ← takeWhile1 (· ≠ ')') r2
  let _ ← expectChar ')' r3
  some (pyStrip (String.mk content))

/-- Ordered aggregate-name table of the parser (`aggregate_map.items()`). -/
def aggNameTable : List (String × Agg) :=
  [("COUNT", .count), ("SUM", .sum), ("AVG", .avg), ("MIN", .min), ("MAX", .max)]

/-- First matching aggregate wrapper, if any (the loop of `_add_attribute`). -/
def findAggMatch (attrStr : String) : Option (Agg × String) :=
  aggNameTable.findSome? (fun p =>
    (aggCallMatch p.1 attrStr.data).map (fun inner => (p.2, inner)))

/-- Embedding of `SQLParser._add_attribute`: alias split, aggregate unwrapping, dotted
relation/name split (with stripping). -/
def addAttribute (attrParts : List String) (q : SQLQuery) : SQLQuery :=
  let attrStr0 := String.intercalate " " attrParts
  let hasAlias := strContains (strUpper attrStr0) " AS " || strContains attrStr0 " as "
  let pair :=
    if hasAlias then
      let parts := splitKwSep "AS" attrStr0
      (pyStrip (parts.getD 0 ""),
       if parts.length > 1 then some (pyStrip (parts.getD 1 "")) else none)
    else (attrStr0, none)
  let withAgg := match findAggMatch pair.1 with
    | some (agg, inner) => (inner, some agg)
    | none => (pair.1, (none : Option Agg))
  let attrStr := withAgg.1
  let attr : Attribute :=
    if strContains attrStr "." then
      let parts := pySplitChar '.' attrStr
      { relation := pyStrip (parts.getD 0 ""), name := pyStrip (parts.getD 1 ""),
        aliasName := pair.2, aggregate := withAgg.2 }
    else
      { relation := "", name := pyStrip attrStr,
        aliasName := pair.2, aggregate := withAgg.2 }
  { q with select_attributes := q.select_attributes ++ [attr] }

/-- Embedding of `SQLParser._parse_select_clause`. -/
def parseSelectClause (tokens : List String) :
    Nat → Nat → List String → Int → SQLQuery → Nat × SQLQuery
  | 0, idx, _, _, q => (idx, q)
  | fuel + 1, idx, cur, depth, q =>
    match tokens.get? idx with
    | none => (idx, if cur.isEmpty then q else addAttribute cur q)
    | some tok =>
      let ts := pyStrip tok
      if strUpper ts = "FROM" && depth = 0 then
        (idx, if cur.isEmpty then q else addAttribute cur q)
      else if ts = "(" then
        parseSelectClause tokens fuel (idx + 1) (cur ++ ["("]) (depth + 1) q
      else if ts = ")" then
        parseSelectClause tokens fuel (idx + 1) (cur ++ [")"]) (depth - 1) q
      else if ts = "," && depth = 0 then
        parseSelectClause tokens fuel (idx + 1) []
          depth (if cur.isEmpty then q else addAttribute cur q)
      else if !(isWsToken tok) then
        parseSelectClause tokens fuel (idx + 1) (cur ++ [ts]) depth q
      else
        parseSelectClause tokens fuel (idx + 1) cur depth q

/-- Upper-cased stripped view of the token after `idx` (for the
`ORDER` + `BY` lookahead). -/
def nextTokenUpper (tokens : List String) (idx : Nat) : Option String :=
  (tokens.get? (idx + 1)).map (fun t => strUpper (pyStrip t))

/-- Upper-cased (unstripped) view of the token after `idx`, as the outer
dispatch loop of `_parse_select_query` uses for its `GROUP`/`ORDER` + `BY`
lookahead. -/
def nextTokenUpperRaw (tokens : List String) (idx : Nat) : Option String :=
  (tokens.get? (idx + 1)).map strUpper

/-- Flush helper of `_parse_from_clause`. -/
def fromFlush (cur : List String) (q : SQLQuery) : SQLQuery :=
  if cur.isEmpty then q
  else
    let tableName := pyStrip (String.intercalate " " cur)
    if tableName = "" then q
    else { q with from_tables := q.from_tables ++ [tableName] }

/-- Embedding of `SQLParser._parse_from_clause`. -/
def parseFromClause (tokens : List String) :
    Nat → Nat → List String → SQLQuery → Nat × SQLQuery
  | 0, idx, _, q => (idx, q)
  | fuel + 1, idx, cur, q =>
    match tokens.get? idx with
    | none => (idx, fromFlush cur q)
    | some tok =>
      let ts := pyStrip tok
      let tsu := strUpper ts
      if tsu = "WHERE" || tsu = "GROUP" || tsu = "GROUP BY" || tsu = "HAVING" ||
         (tsu = "ORDER" && nextTokenUpper tokens idx = some "BY") ||
         tsu = "ORDER BY" || tsu = "LIMIT" || ts = ";" then
        (idx, fromFlush cur q)
      else if ts = "," then
        parseFromClause tokens fuel (idx + 1) [] (fromFlush cur q)
      else if !(isWsToken tok) then
        parseFromClause tokens fuel (idx + 1) (cur ++ [ts]) q
      else
        parseFromClause tokens fuel (idx + 1) cur q

/-- Embedding of `SQLParser._parse_where_clause`: accumulate the condition text with the
special dot handling, then hand it to `_parse_conditions`. -/
def parseWhereClause (tokens : List String) :
    Nat → Nat → String → SQLQuery → Nat × SQLQuery
  | 0, idx, _, q => (idx, q)
  | fuel + 1, idx, condStr, q =>
    match tokens.get? idx with
    | none => (idx, if condStr = "" then q else parseConditions (pyStrip condStr) q)
    | some tok =>
      let ts := pyStrip tok
      let tsu := strUpper ts
      if tsu = "GROUP" || tsu = "GROUP BY" || tsu = "HAVING" || tsu = "LIMIT" ||
         tsu = "UNION" || tsu = "INTERSECT" || tsu = "EXCEPT" ||
         (tsu = "ORDER" && nextTokenUpper tokens idx = some "BY") ||
         tsu = "ORDER BY" || ts = ";" then
        (idx, if condStr = "" then q else parseConditions (pyStrip condStr) q)
      else
        let condStr' :=
          if isWsToken tok then condStr
          else if ts = "." then pyRstrip condStr ++ "."
          else if idx > 0 && condStr ≠ "" && lastCharIs condStr ['.'] then
            condStr ++ ts
          else
            (if condStr ≠ "" && !lastCharIs condStr ['(', ','] then condStr ++ " "
             else condStr) ++ ts
        parseWhereClause tokens fuel (idx + 1) condStr' q

/-- Embedding of `SQLParser._add_group_by_attribute`. -/
def addGroupByAttribute (attrParts : List String) (q : SQLQuery) : SQLQuery :=
  let attrStr := String.intercalate " " attrParts
  let attr : Attribute :=
    if strContains attrStr "." then
      let parts := pySplitChar '.' attrStr
      { relation := pyStrip (parts.getD 0 ""), name := pyStrip (parts.getD 1 "") }
    else
      { relation := "", name := pyStrip attrStr }
  { q with group_by := q.group_by ++ [attr] }

/-- Embedding of `SQLParser._parse_group_by_clause`. -/
def parseGroupByClause (tokens : List String) :
    Nat → Nat → List String → SQLQuery → Nat × SQLQuery
  | 0, idx, _, q => (idx, q)
  | fuel + 1, idx, cur, q =>
    match tokens.get? idx with
    | none => (idx, if cur.isEmpty then q else addGroupByAttribute cur q)
    | some tok =>
      let ts := pyStrip tok
      let tsu := strUpper ts
      if tsu = "HAVING" || tsu = "ORDER" || tsu = "ORDER BY" || tsu = "LIMIT" ||
         tsu = ";" then
        (idx, if cur.isEmpty then q else addGroupByAttribute cur q)
      else if ts = "," then
        parseGroupByClause tokens fuel (idx + 1) []
          (if cur.isEmpty then q else addGroupByAttribute cur q)
      else if !(isWsToken tok) then
        parseGroupByClause tokens fuel (idx + 1) (cur ++ [ts]) q
      else
        parseGroupByClause tokens fuel (idx + 1) cur q

/-- Embedding of `SQLParser._parse_having_clause`. -/
def parseHavingClause (tokens : List String) :
    Nat → Nat → List String → SQLQuery → Nat × SQLQuery
  | 0, idx, _, q => (idx, q)
  | fuel + 1, idx, parts, q =>
    match tokens.get? idx with
    | none =>
      (idx, if parts.isEmpty then q
            else parseHavingConditions (String.intercalate " " parts) q)
    | some tok =>
      let ts := pyStrip tok
      let tsu := strUpper ts
      if tsu = "ORDER" || tsu = "LIMIT" || tsu = ";" then
        (idx, if parts.isEmpty then q
              else parseHavingConditions (String.intercalate " " parts) q)
      else if !(isWsToken tok) then
        parseHavingClause tokens fuel (idx + 1) (parts ++ [ts]) q
      else
        parseHavingClause tokens fuel (idx + 1) parts q

/-- Embedding of `SQLParser._add_order_by_attribute`: the joined text has `ASC`/`DESC`
substrings removed before the dotted split. -/
def addOrderByAttribute (attrParts : List String) (direction : String)
    (q : SQLQuery) : SQLQuery :=
  let attrStr := pyStrip
    (pyReplaceSub (pyReplaceSub (String.intercalate " " attrParts) "ASC" "")
      "DESC" "")
  let attr : Attribute :=
    if strContains attrStr "." then
      let parts := pySplitChar '.' attrStr
      { relation := pyStrip (parts.getD 0 ""), name := pyStrip (parts.getD 1 "") }
    else
      { relation := "", name := pyStrip attrStr }
  { q with order_by := q.order_by ++ [(attr, direction)] }

/-- Embedding of `SQLParser._parse_order_by_clause`. -/
def parseOrderByClause (tokens : List String) :
    Nat → Nat → List String → String → SQLQuery → Nat × SQLQuery
  | 0, idx, _, _, q => (idx, q)
  | fuel + 1, idx, cur, direction, q =>
    match tokens.get? idx with
    | none => (idx, if cur.isEmpty then q else addOrderByAttribute cur direction q)
    | some tok =>
      let tsu := strUpper (pyStrip tok)
      if tsu = "LIMIT" || tsu = "OFFSET" || tsu = ";" then
        (idx, if cur.isEmpty then q else addOrderByAttribute cur direction q)
      else if tsu = "ASC" || tsu = "DESC" then
        parseOrderByClause tokens fuel (idx + 1) cur tsu q
      else if tsu = "," then
        parseOrderByClause tokens fuel (idx + 1) [] "ASC"
          (if cur.isEmpty then q else addOrderByAttribute cur direction q)
      else if !(isWsToken tok) then
        parseOrderByClause tokens fuel (idx + 1) (cur ++ [tok]) direction q
      else
        parseOrderByClause tokens fuel (idx + 1) cur direction q

/-- Embedding of `SQLParser._parse_limit_clause`: a digit token is recorded verbatim,
including `0`. -/
def parseLimitClause (tokens : List String) (startIdx : Nat) (q : SQLQuery) :
    Nat × SQLQuery :=
  match tokens.get? startIdx with
  | some tok =>
    let ts := pyStrip tok
    if pyIsDigitStr ts then (startIdx + 1, { q with limit := some (strToNat ts) })
    else (startIdx, q)
  | none => (startIdx, q)

/-- Embedding of `SQLParser._parse_offset_clause`. -/
def parseOffsetClause (tokens : List String) (startIdx : Nat) (q : SQLQuery) :
    Nat × SQLQuery :=
  match tokens.get? startIdx with
  | some tok =>
    let ts := pyStrip tok
    if pyIsDigitStr ts then (startIdx + 1, { q with offset := some (strToNat ts) })
    else (startIdx, q)
  | none => (startIdx, q)

/-- Outer clause-dispatch loop of `SQLParser._parse_select_query`. -/
def parseSelectQueryGo (tokens : List String) :
    Nat → Nat → SQLQuery → SQLQuery
  | 0, _, q => q
  | fuel + 1, idx, q =>
    match tokens.get? idx with
    | none => q
    | some tok =>
      if isWsToken tok || tok = "," || tok = ";" || tok = "(" || tok = ")" then
        parseSelectQueryGo tokens fuel (idx + 1) q
      else
        let kw := strUpper tok
        if kw = "SELECT" then
          let r := parseSelectClause tokens (tokens.length + 1) (idx + 1) [] 0 q
          parseSelectQueryGo tokens fuel r.1 r.2
        else if kw = "FROM" then
          let r := parseFromClause tokens (tokens.length + 1) (idx + 1) [] q
          parseSelectQueryGo tokens fuel r.1 r.2
        else if kw = "WHERE" then
          let r := parseWhereClause tokens (tokens.length + 1) (idx + 1) "" q
          parseSelectQueryGo tokens fuel r.1 r.2
        else if kw = "GROUP BY" then
          let r := parseGroupByClause tokens (tokens.length + 1) (idx + 1) [] q
          parseSelectQueryGo tokens fuel r.1 r.2
        else if kw = "GROUP" && nextTokenUpperRaw tokens idx = some "BY" then
          let r := parseGroupByClause tokens (tokens.length + 1) (idx + 2) [] q
          parseSelectQueryGo tokens fuel r.1 r.2
        else if kw = "HAVING" then
          let r := parseHavingClause tokens (tokens.length + 1) (idx + 1) [] q
          parseSelectQueryGo tokens fuel r.1 r.2
        else if kw = "ORDER BY" then
          let r := parseOrderByClause tokens (tokens.length + 1) (idx + 1) [] "ASC" q
          parseSelectQueryGo tokens fuel r.1 r.2
        else if kw = "ORDER" && nextTokenUpperRaw tokens idx = some "BY" then
          let r := parseOrderByClause tokens (tokens.length + 1) (idx + 2) [] "ASC" q
          parseSelectQueryGo tokens fuel r.1 r.2
        else if kw = "LIMIT" then
          let r := parseLimitClause tokens (idx + 1) q
          parseSelectQueryGo tokens fuel r.1 r.2
        else if kw = "OFFSET" then
          let r := parseOffsetClause tokens (idx + 1) q
          parseSelectQueryGo tokens fuel r.1 r.2
        else if kw = "UNION" then
          parseSelectQueryGo tokens fuel (idx + 1)
            { q with combination_type := some .union }
        else if kw = "INTERSECT" then
          parseSelectQueryGo tokens fuel (idx + 1)
            { q with combination_type := some .intersect }
        else if kw = "EXCEPT" then
          parseSelectQueryGo tokens fuel (idx + 1)
            { q with combination_type := some .except }
        else
          parseSelectQueryGo tokens fuel (idx + 1) q

/-! ## Statement-level parsing (`SQLParser.parse`) -/

/-- Statement preparation of `SQLParser.parse`: strip, ensure a trailing
semicolon. -/
def prepQuery (s : String) : String :=
  let t := pyStrip s
  if strEndsWith t ";" then t else t ++ ";"

/-- Embedding of `SQLParser._get_query_type`: the first DML keyword decides. -/
def getQueryType (tokens : List String) : Option QueryType :=
  tokens.findSome? (fun t =>
    let u := strUpper t
    if u = "SELECT" then some QueryType.select
    else if u = "INSERT" then some QueryType.insert
    else if u = "DELETE" then some QueryType.delete
    else if u = "UPDATE" then some QueryType.update
    else none)

/-- Dict assignment for the insert-value map. -/
def asetIns : List (String × PyVal) → String → PyVal → List (String × PyVal)
  | [], k, v => [(k, v)]
  | (k0, v0) :: rest, k, v =>
    if k0 = k then (k0, v) :: rest else (k0, v0) :: asetIns rest k v

/-- INSERT matcher
`INSERT\s+INTO\s+(\w+)\s*\(([^)]+)\)\s*VALUES\s*\(([^)]+)\)` (ci). -/
def insertMatch (cs : List Char) : Option (String × String × String) := do
  let r1 ← litCI "INSERT".data cs
  let r2 ← wsRun1 r1
  let r3 ← litCI "INTO".data r2
  let r4 ← wsRun1 r3
  let (table, r5) ← takeWhile1 isWordChar r4
  let r6 ← expectChar '(' (skipWsL r5)
  let (cols, r7) ← takeWhile1 (· ≠ ')') r6
  let r8 ← expectChar ')' r7
  let r9 ← litCI "VALUES".data (skipWsL r8)
  let r10 ← expectChar '(' (skipWsL r9)
  let (vals, r11) ← takeWhile1 (· ≠ ')') r10
  let _ ← expectChar ')' r11
  some (String.mk table, String.mk cols, String.mk vals)

/-- Embedding of `SQLParser._parse_insert_query`. -/
def parseInsertQuery (queryStr : String) (q : SQLQuery) : SQLQuery :=
  match insertMatch (pyStrip queryStr).data with
  | some (table, colsStr, valsStr) =>
    let columns := (pySplitChar ',' colsStr).map pyStrip
    let values := (pySplitChar ',' valsStr).map
      (fun v => pyStripChars ['\x27', '"'] (pyStrip v))
    let pairs := columns.zip values
    { q with insert_table := some table,
             insert_values := pairs.foldl
               (fun m p => asetIns m p.1 (.pstr p.2)) q.insert_values }
  | none => q

/-- DELETE matcher `DELETE\s+FROM\s+(\w+)(?:\s+WHERE\s+(.+))?` (ci). -/
def deleteMatch (cs : List Char) : Option (String × Option String) := do
  let r1 ← litCI "DELETE".data cs
  let r2 ← wsRun1 r1
  let r3 ← litCI "FROM".data r2
  let r4 ← wsRun1 r3
  let (table, r5) ← takeWhile1 isWordChar r4
  let whereOpt :=
    match wsRun1 r5 with
    | some r6 =>
      match litCI "WHERE".data r6 with
      | some r7 =>
        match wsRun1 r7 with
        | some r8 =>
          match restGroup r8 with
          | some rest => some rest
          | none => none
        | none => none
      | none => none
    | none => none
  some (String.mk table, whereOpt)

/-- Embedding of `SQLParser._parse_delete_query`. -/
def parseDeleteQuery (queryStr : String) (q : SQLQuery) : SQLQuery :=
  match deleteMatch (pyStrip queryStr).data with
  | some (table, whereOpt) =>
    let q1 := { q with delete_table := some table, from_tables := [table] }
    match whereOpt with
    | some conds => parseConditions conds q1
    | none => q1
  | none => q

/-- Embedding of `SQLParser.parse`: statement preparation, query-type dispatch, clause
parsing.  `none` models the `ValueError` raised for undetectable or
unsupported query kinds. -/
def parseSQL (s : String) : Option SQLQuery :=
  let s' := prepQuery s
  let tokens := tokenizeModel s'
  match getQueryType tokens with
  | none => none
  | some .select =>
    some (parseSelectQueryGo tokens (tokens.length + 1) 0 { type := .select })
  | some .insert => some (parseInsertQuery s' { type := .insert })
  | some .delete => some (parseDeleteQuery s' { type := .delete })
  | some .update => none

/-! ## Expression builder (`core/converter.py`, `ExpressionBuilder`) -/

/-- Expression tree nodes (`ExpressionNode`). -/
inductive ExpressionNode
  | operatorNode (op : Char) (left right : ExpressionNode)
  | operandTC (table column : String)
  | operandC (column : String)
  | literal (s : String)
  | functionNode (name : String) (args : List ExpressionNode)

/-- Scan for the first occurrence of `op` outside parentheses with non-empty
stripped sides (the operator loop of `parse_expression`). -/
def findOpSplitGo (op : Char) (full : List Char) :
    List Char → Nat → Int → Option (String × String)
  | [], _, _ => none
  | c :: rest, i, depth =>
    if c = '(' then findOpSplitGo op full rest (i + 1) (depth + 1)
    else if c = ')' then findOpSplitGo op full rest (i + 1) (depth - 1)
    else if c = op && depth = 0 then
      let l := pyStrip (String.mk (full.take i))
      let r := pyStrip (String.mk (full.drop (i + 1)))
      if l ≠ "" && r ≠ "" then some (l, r)
      else findOpSplitGo op full rest (i + 1) depth
    else findOpSplitGo op full rest (i + 1) depth

/-- First outside-parentheses split point of `op` in `s`. -/
def findOpSplit (op : Char) (s : String) : Option (String × String) :=
  findOpSplitGo op s.data s.data 0 0

/-- Function-call matcher `(\w+)\((.*?)\)` of `parse_expression`. -/
def funcCallMatch (cs : List Char) : Option (String × String) := do
  let (name, r1) ← takeWhile1 isWordChar cs
  let r2 ← expectChar '(' r1
  let content := r2.takeWhile (· ≠ ')')
  if content.any (· = '\n') then none
  else do
    let _ ← expectChar ')' (r2.drop content.length)
    some (String.mk name, String.mk content)

/-- Full-match test for `^\d+\.\d+$` (a plain decimal number). -/
def decimalFullMatch (cs : List Char) : Bool :=
  let (d1, r1) := takeDigits cs
  match r1 with
  | '.' :: r2 =>
    let (d2, r3) := takeDigits r2
    !d1.isEmpty && !d2.isEmpty && r3.isEmpty
  | _ => false

/-- Embedding of `ExpressionBuilder.parse_expression` with explicit recursion fuel (the
top-level wrapper supplies enough fuel for any input). -/
def parseExpressionAux : Nat → String → ExpressionNode
  | 0, s => .literal s
  | fuel + 1, s0 =>
    let s1 := pyStrip s0
    let s :=
      if strStartsWith s1 "(" && strEndsWith s1 ")" then
        pyStrip (String.mk (s1.data.drop 1).dropLast)
      else s1
    match (['+', '-', '*', '/'].findSome?
        (fun op => (findOpSplit op s).map (fun p => (op, p)))) with
    | some (op, l, r) =>
      .operatorNode op (parseExpressionAux fuel l) (parseExpressionAux fuel r)
    | none =>
      match funcCallMatch s.data with
      | some (name, argsStr) =>
        let args := (((pySplitChar ',' argsStr).map pyStrip).filter (· ≠ "")).map
          (parseExpressionAux fuel)
        .functionNode (strUpper name) args
      | none =>
        let tcOpt :=
          if strContains s "." && !decimalFullMatch s.data then
            let parts := pySplitChar '.' s
            if parts.length = 2 then
              some (ExpressionNode.operandTC (parts.getD 0 "") (parts.getD 1 ""))
            else none
          else none
        match tcOpt with
        | some n => n
        | none =>
          if pyFloatOk s then .literal s
          else if strStartsWith s "\x27" || strStartsWith s "\"" then .literal s
          else .operandC s

/-- Embedding of `ExpressionBuilder.parse_expression`. -/
def parseExpression (s : String) : ExpressionNode :=
  parseExpressionAux (s.length + 1) s

/-- Embedding of `ExpressionBuilder.to_sparql_expression`. -/
def toSparqlExpression (vm : List (String × String)) : ExpressionNode → String
  | .operatorNode op l r =>
    "(" ++ toSparqlExpression vm l ++ " " ++ String.mk [op] ++ " " ++
      toSparqlExpression vm r ++ ")"
  | .operandTC t c =>
    match alookup vm (t ++ "." ++ c) with
    | some v => v
    | none => "?" ++ strLower c
  | .operandC c =>
    (match alookup vm c with
     | some v => v
     | none =>
       match vm.find? (fun p => strEndsWith p.1 ("." ++ c)) with
       | some p => p.2
       | none => "?" ++ strLower c)
  | .literal s => s
  | .functionNode name args =>
    if name = "COUNT" || name = "SUM" || name = "AVG" || name = "MIN" ||
       name = "MAX" then
      match args with
      | a :: _ => name ++ "(" ++ toSparqlExpression vm a ++ ")"
      | [] => name ++ "(*)"
    else "?unknown"

/-! ## Complex WHERE conversion (`SQL2SPARQLConverter._process_complex_where`
and `_create_filter_expression`) -/

/-- Variable resolution `var_mappings.get(col, f"?{col.replace('.','_').lower()}")`. -/
def vmGetVar (vm : List (String × String)) (col : String) : String :=
  match alookup vm col with
  | some v => v
  | none => "?" ++ strLower (pyReplaceChar col '.' "_")

/-- Calculated-condition matcher `\((.*?)\)\s*([><=]+)\s*(\d+)`. -/
def calcMatch (cs : List Char) : Option (String × String × String) := do
  let r1 ← expectChar '(' cs
  let content := r1.takeWhile (· ≠ ')')
  if content.any (· = '\n') then none
  else do
    let r2 ← expectChar ')' (r1.drop content.length)
    let (ops, r4) ← takeWhile1 (fun c => c = '>' || c = '<' || c = '=') (skipWsL r2)
    let (digits, _) ← takeWhile1 Char.isDigit (skipWsL r4)
    some (String.mk content, String.mk ops, String.mk digits)

/-- Dotted-word backtracking for `\w+(?:\.\w+)?`: inner loop over the length
of the optional `.column` part, longest first. -/
def colTryJ {α : Type} (f : String → List Char → Option α) (base run2 after : List Char) :
    Nat → Option α
  | 0 => none
  | j + 1 =>
    match f (String.mk (base ++ '.' :: run2.take (j + 1)))
        (run2.drop (j + 1) ++ after) with
    | some r => some r
    | none => colTryJ f base run2 after j

/-- Outer backtracking loop over the length of the leading `\w+` run. -/
def colTryK {α : Type} (f : String → List Char → Option α) (run1 after : List Char) :
    Nat → Option α
  | 0 => none
  | k + 1 =>
    let base := run1.take (k + 1)
    let rest1 := run1.drop (k + 1) ++ after
    let withDot :=
      match rest1 with
      | '.' :: r2 =>
        let run2 := r2.takeWhile isWordChar
        colTryJ f base run2 (r2.drop run2.length) run2.length
      | _ => none
    match withDot with
    | some r => some r
    | none =>
      match f (String.mk base) rest1 with
      | some r => some r
      | none => colTryK f run1 after k

/-- Match `\w+(?:\.\w+)?` with full backtracking, handing each candidate
column and remainder to `f`. -/
def matchColOptDot {α : Type} (f : String → List Char → Option α) (cs : List Char) :
    Option α :=
  let run1 := cs.takeWhile isWordChar
  if run1.isEmpty then none
  else colTryK f run1 (cs.drop run1.length) run1.length

/-- Ordered operator alternation
`=|!=|<>|<|>|<=|>=|LIKE|IN|BETWEEN` of `_create_filter_expression`,
each followed by the mandatory `\s+`. -/
def stdOpCandidates : List String :=
  ["=", "!=", "<>", "<", ">", "<=", ">=", "LIKE", "IN", "BETWEEN"]

/-- Try the operator alternatives in order; each must be followed by at least
one whitespace character and a non-empty value group. -/
def stdOpTry (ops : List String) (rest : List Char) : Option (String × String) :=
  match ops with
  | [] => none
  | op :: more =>
    match litCI op.data rest with
    | some r1 =>
      (match wsRun1 r1 with
       | some r2 =>
         match restGroup r2 with
         | some value => some (String.mk (rest.take op.length), value)
         | none => stdOpTry more rest
       | none => stdOpTry more rest)
    | none => stdOpTry more rest

/-- Standard comparison matcher
`(\w+(?:\.\w+)?)\s*(=|!=|<>|<|>|<=|>=|LIKE|IN|BETWEEN)\s+(.+)` (ci). -/
def stdCompMatch (cs : List Char) : Option (String × String × String) :=
  matchColOptDot
    (fun col rest =>
      (stdOpTry stdOpCandidates (skipWsL rest)).map
        (fun p => (col, p.1, p.2)))
    cs

/-- BETWEEN value matcher `(\S+)\s+AND\s+(\S+)` (ci). -/
def betweenValMatch (cs : List Char) : Option (String × String) := do
  let (lo, r1) ← takeWhile1 (fun c => !pyIsSpace c) cs
  let r2 ← wsRun1 r1
  let r3 ← litCI "AND".data r2
  let r4 ← wsRun1 r3
  let (hi, _) ← takeWhile1 (fun c => !pyIsSpace c) r4
  some (String.mk lo, String.mk hi)

/-- Embedding of `SQL2SPARQLConverter._create_filter_expression`: calculated expressions
first (when arithmetic characters occur), then the standard operator table;
an unmatched condition yields the empty string. -/
def createFilterExpression (vm : List (String × String)) (condition : String) :
    String :=
  let fallback :=
    match stdCompMatch condition.data with
    | none => ""
    | some (column, opRaw, value) =>
      let operator := strUpper opRaw
      let var := vmGetVar vm column
      if operator = "LIKE" then
        let pat := pyReplaceChar
          (pyReplaceChar (pyStripChars ['\x27', '"'] value) '%' ".*") '_' "."
        "regex(" ++ var ++ ", \"" ++ pat ++ "\", \"i\")"
      else if operator = "IN" then
        let vals := pySplitChar ',' (pyStripChars ['(', ')'] value)
        let formatted := vals.map (fun v =>
          let v' := pyStripChars ['\x27', '"'] (pyStrip v)
          if pyFloatOk v' then v' else "\"" ++ v' ++ "\"")
        var ++ " IN (" ++ String.intercalate ", " formatted ++ ")"
      else if operator = "BETWEEN" then
        match betweenValMatch value.data with
        | some (lo, hi) =>
          "(" ++ var ++ " >= " ++ lo ++ " && " ++ var ++ " <= " ++ hi ++ ")"
        | none => ""
      else
        let v' := pyStripChars ['\x27', '"'] value
        let vf := if pyFloatOk v' then v' else "\"" ++ v' ++ "\""
        let sop :=
          if operator = "=" then "="
          else if operator = "!=" || operator = "<>" then "!="
          else strLower operator
        var ++ " " ++ sop ++ " " ++ vf
  if condition.data.any (fun c => c = '*' || c = '/' || c = '+' || c = '-') then
    match calcMatch condition.data with
    | some (expr, op, val) =>
      toSparqlExpression vm (parseExpression (pyStrip expr)) ++ " " ++ op ++
        " " ++ val
    | none => fallback
  else fallback

/-- One BETWEEN match of the finditer pattern
`(\w+(?:\.\w+)?)\s+BETWEEN\s+(\S+)\s+AND\s+(\S+)` (ci). -/
def betweenMatchAt (cs : List Char) :
    Option (String × String × String × List Char) :=
  matchColOptDot
    (fun col rest => do
      let r1 ← wsRun1 rest
      let r2 ← litCI "BETWEEN".data r1
      let r3 ← wsRun1 r2
      let (lo, r4) ← takeWhile1 (fun c => !pyIsSpace c) r3
      let r5 ← wsRun1 r4
      let r6 ← litCI "AND".data r5
      let r7 ← wsRun1 r6
      let (hi, r8) ← takeWhile1 (fun c => !pyIsSpace c) r7
      some (col, String.mk lo, String.mk hi, r8))
    cs

/-- Recorded BETWEEN match with its span in the original string. -/
structure BtwMatch where
  mstart : Nat
  mstop : Nat
  col : String
  lo : String
  hi : String
deriving DecidableEq

/-- Embedding of `re.finditer` over the BETWEEN pattern: leftmost, non-overlapping. -/
def betweenFindAllGo : Nat → List Char → Nat → List BtwMatch
  | 0, _, _ => []
  | fuel + 1, cs, pos =>
    match betweenMatchAt cs with
    | some (col, lo, hi, rest) =>
      let consumed := cs.length - rest.length
      ⟨pos, pos + consumed, col, lo, hi⟩ ::
        betweenFindAllGo fuel rest (pos + consumed)
    | none =>
      match cs with
      | _ :: t => betweenFindAllGo fuel t (pos + 1)
      | [] => []

/-- All BETWEEN matches of a WHERE clause. -/
def betweenFindAll (s : String) : List BtwMatch :=
  betweenFindAllGo (s.length + 1) s.data 0

/-- Python slice-splice `s[:a] + s[b:]`. -/
def cutSpan (s : String) (a b : Nat) : String :=
  String.mk (s.data.take a ++ s.data.drop b)

/-- Embedding of `SQL2SPARQLConverter._process_complex_where`: BETWEEN conditions are
extracted first (their spans cut out of the clause, using the original match
positions), then the remainder is split on AND and OR. -/
def processComplexWhere (vm : List (String × String)) (whereClause : String) :
    List String :=
  let step1 :=
    if strContains (strUpper whereClause) "BETWEEN" then
      let ms := betweenFindAll whereClause
      let filters := ms.map (fun m =>
        let var := vmGetVar vm m.col
        "FILTER(" ++ var ++ " >= " ++ m.lo ++ " && " ++ var ++ " <= " ++
          m.hi ++ ")")
      let remaining := ms.foldl (fun s m => cutSpan s m.mstart m.mstop) whereClause
      (filters, remaining)
    else ([], whereClause)
  let rest :=
    if pyStrip step1.2 ≠ "" then
      (splitKwSep "AND" step1.2).foldl
        (fun acc part =>
          let part := pyStrip part
          if part = "" then acc
          else
            let orParts := splitKwSep "OR" part
            if orParts.length > 1 then
              let orFilters := ((orParts.map
                (fun op => createFilterExpression vm (pyStrip op))).filter
                  (· ≠ ""))
              if orFilters.isEmpty then acc
              else acc ++ ["FILTER(" ++ String.intercalate " || " orFilters ++ ")"]
            else
              let f := createFilterExpression vm (pyStrip part)
              if f = "" then acc else acc ++ ["FILTER(" ++ f ++ ")"]) []
    else []
  step1.1 ++ rest

/-! ## Top-level dispatch and union handling
(`SQL2SPARQLConverter.convert` / `_handle_union_query`) -/

/-- First component of `upper.split(pat)` (text before the first occurrence;
the whole string when absent). -/
def substrBefore (s pat : String) : String :=
  match findSubList s.data pat.data with
  | some i => String.mk (s.data.take i)
  | none => s

/-- Second component of `upper.split(pat)` (text between the first and second
occurrences; empty when the pattern is absent). -/
def splitComp1 (s pat : String) : String :=
  match findSubList s.data pat.data with
  | some i =>
    let rest := s.data.drop (i + pat.length)
    match findSubList rest pat.data with
    | some j => String.mk (rest.take j)
    | none => String.mk rest
  | none => ""

/-- The `needs_enhanced` test of `SQL2SPARQLConverter.convert`. -/
def needsEnhanced (sql : String) : Bool :=
  let up := strUpper sql
  let selectPart := if strContains up "FROM" then substrBefore up "FROM" else up
  let wherePart := if strContains up "WHERE" then splitComp1 up "WHERE" else ""
  selectPart.data.any (fun c => c = '*' || c = '/' || c = '+' || c = '-') ||
  strContains wherePart "BETWEEN" || strContains wherePart "IN (" ||
  strContains wherePart " OR "

/-- Standard conversion path of `SQL2SPARQLConverter.convert`:
parse, convert, serialise.  `none` models a parser exception. -/
def convertStandard (sql : String) (entityId : String) (st : ConvState) :
    Option (String × ConvState) :=
  (parseSQL sql).map (fun q =>
    let r := convertQuery q entityId st
    (sparqlToString r.1, r.2))

/-- Branch converter used by the union handler for branches that take the
standard path (no nested UNION, `needs_enhanced` false). -/
def convertBranchStd (sql : String) : Option String :=
  (convertStandard sql "" {}).map (·.1)

/-- Terminator test of the lazy capture in
`\s+ORDER\s+BY\s+(.*?)(?:\s+LIMIT|\s*$)`. -/
def obTerminator (rest : List Char) : Bool :=
  (match wsRun1 rest with
   | some r1 => (litCI "LIMIT".data r1).isSome
   | none => false) ||
  rest.all pyIsSpace

/-- Lazy capture of the ORDER BY clause text: shortest non-newline prefix
whose remainder matches the terminator. -/
def obLazyCapture : Nat → List Char → List Char → Option String
  | 0, _, _ => none
  | fuel + 1, acc, rest =>
    if obTerminator rest then some (String.mk acc.reverse)
    else
      match rest with
      | c :: t => if c = '\n' then none else obLazyCapture fuel (c :: acc) t
      | [] => none

/-- ORDER BY match attempt at one position. -/
def obMatchAt (cs : List Char) : Option String := do
  let r1 ← wsRun1 cs
  let r2 ← litCI "ORDER".data r1
  let r3 ← wsRun1 r2
  let r4 ← litCI "BY".data r3
  let r5 ← wsRun1 r4
  obLazyCapture (r5.length + 1) [] r5

/-- Embedding of `re.search(r"\s+ORDER\s+BY\s+(.*?)(?:\s+LIMIT|\s*$)", sql, I)`:
start position and captured clause text. -/
def reSearchOrderBy (s : String) : Option (Nat × String) :=
  let rec go : Nat → List Char → Nat → Option (Nat × String)
    | 0, _, _ => none
    | _ + 1, [], _ => none
    | fuel + 1, c :: t, pos =>
      match obMatchAt (c :: t) with
      | some cap => some (pos, cap)
      | none => go fuel t (pos + 1)
  go (s.length + 1) s.data 0

/-- LIMIT match attempt at one position: `\s+LIMIT\s+(\d+)`. -/
def limMatchAt (cs : List Char) : Option String := do
  let r1 ← wsRun1 cs
  let r2 ← litCI "LIMIT".data r1
  let r3 ← wsRun1 r2
  let (digits, _) ← takeWhile1 Char.isDigit r3
  some (String.mk digits)

/-- Embedding of `re.search(r"\s+LIMIT\s+(\d+)", sql, I)`: start position and digits. -/
def reSearchLimitNum (s : String) : Option (Nat × String) :=
  let rec go : Nat → List Char → Nat → Option (Nat × String)
    | 0, _, _ => none
    | _ + 1, [], _ => none
    | fuel + 1, c :: t, pos =>
      match limMatchAt (c :: t) with
      | some digits => some (pos, digits)
      | none => go fuel t (pos + 1)
  go (s.length + 1) s.data 0

/-- Separator matcher for `\s+UNION(?:\s+ALL)?\s+` (ci), returning the
remainder after the separator. -/
def unionSepMatch (cs : List Char) : Option (List Char) := do
  let r1 ← wsRun1 cs
  let r2 ← litCI "UNION".data r1
  match (do
      let a1 ← wsRun1 r2
      let a2 ← litCI "ALL".data a1
      wsRun1 a2 : Option (List Char)) with
  | some r3 => some r3
  | none => wsRun1 r2

/-- Splitter for `re.split(r"\s+UNION(?:\s+ALL)?\s+", s, flags=I)`. -/
def splitUnionGo : Nat → List Char → List Char → List String
  | 0, cs, cur => [String.mk (cur.reverse ++ cs)]
  | _ + 1, [], cur => [String.mk cur.reverse]
  | fuel + 1, c :: rest, cur =>
    match unionSepMatch (c :: rest) with
    | some r => String.mk cur.reverse :: splitUnionGo fuel r []
    | none => splitUnionGo fuel rest (c :: cur)

/-- UNION-separated parts of a query text. -/
def splitUnionParts (s : String) : List String :=
  splitUnionGo (s.length + 1) s.data []

/-- Embedding of `re.search(r"WHERE \{(.*?)\}", sub, re.DOTALL)`: content of the first
WHERE block (lazy up to the first closing brace). -/
def findWhereBlock (s : String) : Option String :=
  let rec go : Nat → List Char → Option String
    | 0, _ => none
    | fuel + 1, cs =>
      match findSubList cs "WHERE \x7b".data with
      | some i =>
        let rest := cs.drop (i + 7)
        let content := rest.takeWhile (· ≠ '\x7d')
        if content.length < rest.length then some (String.mk content)
        else go fuel (cs.drop (i + 1))
      | none => none
  go (s.length + 1) s.data

/-- Last occurrence of a substring. -/
def findLastSub (hay needle : List Char) : Option Nat :=
  let rec go : Nat → List Char → Nat → Option Nat → Option Nat
    | 0, _, _, best => best
    | fuel + 1, cs, pos, best =>
      match findSubList cs needle with
      | some i => go fuel (cs.drop (i + 1)) (pos + i + 1) (some (pos + i))
      | none => best
  go (hay.length + 1) hay 0 none

/-- Embedding of `re.search(r"SELECT (.*)WHERE", sub, re.DOTALL)`: greedy capture between
the first `SELECT ` and the last following `WHERE`. -/
def findSelectHeader (s : String) : Option String :=
  let rec go : Nat → List Char → Option String
    | 0, _ => none
    | fuel + 1, cs =>
      match findSubList cs "SELECT ".data with
      | some i =>
        let rest := cs.drop (i + 7)
        match findLastSub rest "WHERE".data with
        | some j => some (String.mk (rest.take j))
        | none => go fuel (cs.drop (i + 1))
      | none => none
  go (s.length + 1) s.data

/-- Per-branch loop of `_handle_union_query`: convert each UNION part with
the supplied branch converter (the source calls `self.convert` recursively)
and collect the output lines; a branch whose output has no WHERE block
contributes nothing, as in the source. -/
def unionLoop (convertBranch : String → Option String) :
    Nat → List String → Option (List String)
  | _, [] => some []
  | i, part :: rest => do
    let p0 := pyStrip part
    let p :=
      if strStartsWith p0 "(" && strEndsWith p0 ")" then
        pyStrip (String.mk (p0.data.drop 1).dropLast)
      else p0
    let sub ← convertBranch p
    let pieces :=
      match findWhereBlock sub with
      | none => []
      | some content =>
        if i = 0 then
          (match findSelectHeader sub with
           | some sv => ["SELECT " ++ pyStrip sv]
           | none => []) ++
          ["WHERE \x7b", "  \x7b " ++ pyStrip content ++ " \x7d"]
        else
          ["  UNION", "  \x7b " ++ pyStrip content ++ " \x7d"]
    let restPieces ← unionLoop convertBranch (i + 1) rest
    some (pieces ++ restPieces)

/-- Embedding of `SQL2SPARQLConverter._handle_union_query`, parameterised by the branch
converter standing for the recursive `self.convert` call: trailing ORDER BY
and LIMIT are located and stripped before the UNION split, the branches are
converted and wrapped, and the ORDER BY / LIMIT clauses are appended once
after the combined pattern. -/
def handleUnionWith (convertBranch : String → Option String) (sql : String) :
    Option String := do
  let orderM := reSearchOrderBy sql
  let limitM := reSearchLimitNum sql
  let clean :=
    match orderM with
    | some om => String.mk (sql.data.take om.1)
    | none =>
      match limitM with
      | some lm => String.mk (sql.data.take lm.1)
      | none => sql
  let parts := splitUnionParts clean
  let body ← unionLoop convertBranch 0 parts
  let tail1 :=
    match orderM with
    | some om =>
      let oc := pyStrip om.2
      ["ORDER BY ?" ++
        pyStrip (pyReplaceSub (pyReplaceSub (strLower oc) " desc" "") " asc" "")]
    | none => []
  let tail2 :=
    match limitM with
    | some lm => ["LIMIT " ++ lm.2]
    | none => []
  some (String.intercalate "\n" (body ++ ["\x7d"] ++ tail1 ++ tail2))

/-! ## Shared lemmas about the SELECT converter -/

theorem predURI_ne_rdf_type (s : String) : predURI s ≠ "rdf:type" := by
  intro h
  have h2 := congrArg String.data h
  simp only [predURI, String.data_append] at h2
  simp at h2

theorem selectConvertAux_fst_length (attrs : List Attribute) :
    ∀ idx sv, (selectConvertAux attrs idx sv).1.length = attrs.length := by
  induction attrs with
  | nil => intro idx sv; rfl
  | cons a rest ih =>
    intro idx sv
    by_cases h : strLower a.name = "subject" <;>
      simp [selectConvertAux, h, ih]

theorem selectConvertAux_fst_getD (attrs : List Attribute) :
    ∀ idx sv i, i < attrs.length →
      strLower ((attrs.getD i ⟨"", "", none, none⟩).name) ≠ "subject" →
      (attrs.getD i ⟨"", "", none, none⟩).aggregate = none →
      (selectConvertAux attrs idx sv).1.getD i "" = "?o" ++ natRepr (idx + i) := by
  induction attrs with
  | nil => intro idx sv i hi; simp at hi
  | cons a rest ih =>
    intro idx sv i hi hsub hagg
    cases i with
    | zero =>
      simp only [List.getD_cons_zero] at hsub hagg
      simp [selectConvertAux, hsub, hagg]
    | succ n =>
      simp only [List.getD_cons_succ] at hsub hagg
      have hn : n < rest.length := by
        simp only [List.length_cons] at hi; omega
      have hrec := ih (idx + 1) (allocSubjectVar sv a.relation).2 n hn hsub hagg
      have harith : idx + 1 + n = idx + (n + 1) := by omega
      rw [harith] at hrec
      by_cases h : strLower a.name = "subject" <;>
        simpa [selectConvertAux, h, List.getD_cons_succ] using hrec

/-- C2.  Projection arity round-trip: `SelectConverter.convert` emits exactly
one projection variable per projected attribute, in attribute order; in
particular the variable at position `i` for a plain (non-`subject`,
non-aggregate) attribute is `?o{i}`, tying each output position to the
input position. -/
theorem claim_C2_projection_arity (attrs : List Attribute) :
    (selectConvert attrs).1.length = attrs.length ∧
    (∀ i, i < attrs.length →
      strLower ((attrs.getD i ⟨"", "", none, none⟩).name) ≠ "subject" →
      (attrs.getD i ⟨"", "", none, none⟩).aggregate = none →
      (selectConvert attrs).1.getD i "" = "?o" ++ natRepr i) := by
  constructor
  · exact selectConvertAux_fst_length attrs 0 []
  · intro i hi h1 h2
    have := selectConvertAux_fst_getD attrs 0 [] i hi h1 h2
    simpa using this

/-- Witness for C2 at a concrete two-attribute projection. -/
theorem claim_C2_witness :
    (selectConvert [⟨"client", "name", none, none⟩,
                    ⟨"client", "email", none, none⟩]).1.length = 2 ∧
    (selectConvert [⟨"client", "name", none, none⟩,
                    ⟨"client", "email", none, none⟩]).1.getD 1 "" = "?o" ++ natRepr 1 :=
  ⟨(claim_C2_projection_arity
      [⟨"client", "name", none, none⟩, ⟨"client", "email", none, none⟩]).1,
   (claim_C2_projection_arity
      [⟨"client", "name", none, none⟩, ⟨"client", "email", none, none⟩]).2
     1 (by decide) (by decide) (by decide)⟩

/-- C7.  Insert structure and literal formatting: one type-membership triple
plus one property triple per non-`subject` column, and on the spec's example
`(name, email, age) = ('Bob', 'bob@example.com', 25)` the string values render
quoted while the numeric string renders bare. -/
theorem claim_C7_insert_structure :
    (∀ (t : String) (vs : List (String × PyVal)) (eid : String),
      (convertInsert t vs eid).length =
        1 + (vs.filter (fun p => strLower p.1 ≠ "subject")).length) ∧
    convertInsert "client"
        [("name", .pstr "Bob"), ("email", .pstr "bob@example.com"),
         ("age", .pstr "25")] "abc12345" =
      [⟨"<http://example.org/client/abc12345>", "rdf:type",
        "<http://example.org/types/Client>"⟩,
       ⟨"<http://example.org/client/abc12345>",
        "<http://example.org/ontology/name>", "\"Bob\""⟩,
       ⟨"<http://example.org/client/abc12345>",
        "<http://example.org/ontology/email>", "\"bob@example.com\""⟩,
       ⟨"<http://example.org/client/abc12345>",
        "<http://example.org/ontology/age>", "25"⟩] := by
  constructor
  · intro t vs eid
    simp [convertInsert]
    omega
  · rfl

/-- C8 counterexample: projecting the `subject` attribute of one relation
twice makes `SelectConverter.convert` emit the identical type-membership
triple twice — the produced triple list is not deduplicated, contradicting
the at-most-once-per-relation claim. -/
theorem claim_C8_counterexample :
    ((selectConvert [⟨"client", "subject", none, none⟩,
                     ⟨"client", "subject", none, none⟩]).2.filter
        (fun t => t.predicate == "rdf:type" && t.object == typeURI "client")).length
      = 2 ∧
    ¬(((selectConvert [⟨"client", "subject", none, none⟩,
                       ⟨"client", "subject", none, none⟩]).2.filter
        (fun t => t.predicate == "rdf:type" && t.object == typeURI "client")).length
      ≤ 1) := by
  decide

theorem selectConvertAux_type_triple_count (attrs : List Attribute) :
    ∀ idx sv,
      ((selectConvertAux attrs idx sv).2.filter
        (fun t => t.predicate == "rdf:type")).length =
      (attrs.filter (fun a => strLower a.name == "subject")).length := by
  induction attrs with
  | nil => intro idx sv; rfl
  | cons a rest ih =>
    intro idx sv
    by_cases h : strLower a.name = "subject"
    · simp [selectConvertAux, h, List.filter, ih]
    · have hpred : (predURI a.name == "rdf:type") = false := by
        simp [predURI_ne_rdf_type a.name]
      have hb : (strLower a.name == "subject") = false := by simp [h]
      simp [selectConvertAux, h, List.filter, hpred, hb, ih]

/-- C8 amended: the type-membership triple is emitted once per occurrence of
a projected `subject` attribute (no per-relation deduplication): the number
of `rdf:type` triples in the output equals the number of projected `subject`
attributes. -/
theorem claim_C8_amended (attrs : List Attribute) :
    ((selectConvert attrs).2.filter (fun t => t.predicate == "rdf:type")).length =
      (attrs.filter (fun a => strLower a.name == "subject")).length :=
  selectConvertAux_type_triple_count attrs 0 []

/-- C4.  Operator table exactness at the spec's three examples:
`price BETWEEN 50 AND 300` becomes `FILTER(?price >= 50 && ?price <= 300)`
(via `_process_complex_where`); `email LIKE '%example.com'` becomes a regex
filter with pattern `.*example.com` and flag `"i"` (via the WHERE converter's
`_build_filter_expression`, also shown end-to-end through
`WhereConverter.convert`); `category IN ('Electronics','Furniture')` becomes
an `IN (...)` filter with both values quoted (via
`_create_filter_expression`). -/
theorem claim_C4_operator_table :
    processComplexWhere [] "price BETWEEN 50 AND 300" =
      ["FILTER(?price >= 50 && ?price <= 300)"] ∧
    buildFilterExpression "?email_value" "LIKE" "%example.com" =
      "regex(?email_value, \".*example.com\", \"i\")" ∧
    (whereConvert [] [⟨⟨"client", "email", none, none⟩, "LIKE", "%example.com", false⟩]
        (selectConvert [⟨"client", "name", none, none⟩]).2 {}).1.2 =
      ["regex(?email_value, \".*example.com\", \"i\")"] ∧
    createFilterExpression [] "category IN (\x27Electronics\x27,\x27Furniture\x27)" =
      "?category IN (\"Electronics\", \"Furniture\")" ∧
    processComplexWhere [] "category IN (\x27Electronics\x27,\x27Furniture\x27)" =
      ["FILTER(?category IN (\"Electronics\", \"Furniture\"))"] :=
  ⟨rfl, rfl, rfl, rfl, rfl⟩

/-- C9 counterexample: for `HAVING MEDIAN(price) > 10` the parser records the
condition with no aggregate tag (`aggregate_map.get` misses), and
`convert_having` then emits nothing at all — the condition is dropped, not
emitted with a default COUNT. -/
theorem claim_C9_counterexample :
    (parseHavingConditions "MEDIAN(price) > 10" { type := .select }).having.length
      = 1 ∧
    ((parseHavingConditions "MEDIAN(price) > 10"
        { type := .select }).having.getD 0
        ⟨⟨"", "", none, none⟩, "", "", false⟩).attr.aggregate = none ∧
    (convertHaving
        (parseHavingConditions "MEDIAN(price) > 10" { type := .select }).having
        [] [] [] {}).1 = [] :=
  ⟨rfl, rfl, rfl⟩

/-- C9 amended: an unknown aggregate function name does not fail the
conversion, but the HAVING condition is silently dropped: the parser stores
it with `aggregate = none` (`aggregate_map.get` returns nothing for e.g.
`MEDIAN`), and `convert_having` skips every condition without an aggregate
tag; a known aggregate such as COUNT is emitted normally.  The COUNT default
of `_build_aggregate_expr` is unreachable for unknown names. -/
theorem claim_C9_amended :
    (∀ (cond : WhereCondition) (existing : List Triple) (sv : List String)
        (sp : List Triple) (st : GHState),
      cond.attr.aggregate = none →
      (convertHaving [cond] existing sv sp st).1 = []) ∧
    aggregateMapGet "MEDIAN" = none ∧
    (convertHaving
        (parseHavingConditions "COUNT(price) > 10" { type := .select }).having
        [] [] [] {}).1 = ["COUNT(?price_having) > 10"] := by
  refine ⟨?_, rfl, rfl⟩
  intro cond existing sv sp st h
  simp [convertHaving, convertHavingGo, h]

/-- Witness for C9's amended theorem at a concrete aggregateless condition. -/
theorem claim_C9_witness :
    ((⟨⟨"", "price", none, none⟩, ">", "10", false⟩ : WhereCondition)).attr.aggregate
      = none ∧
    (convertHaving [⟨⟨"", "price", none, none⟩, ">", "10", false⟩] [] [] [] {}).1
      = [] :=
  ⟨rfl, claim_C9_amended.1 ⟨⟨"", "price", none, none⟩, ">", "10", false⟩ [] [] [] {} rfl⟩

/-- A word token: non-empty and free of whitespace and `,;()` punctuation. -/
def tokIsPlain (t : String) : Bool :=
  !t.data.isEmpty && t.data.all plainTokChar

/-- The tokenizer yields nothing on an empty character stream. -/
theorem tokenizeGo_nil (fuel : Nat) : tokenizeGo fuel [] = [] := by
  cases fuel <;> rfl

/-- Dropping the length of the `takeWhile` prefix is `dropWhile`. -/
theorem drop_takeWhile_length (p : Char → Bool) :
    ∀ l : List Char, l.drop (l.takeWhile p).length = l.dropWhile p := by
  intro l
  induction l with
  | nil => rfl
  | cons c rest ih =>
    by_cases h : p c
    · simp [List.takeWhile_cons, List.dropWhile_cons, h, ih]
    · simp [List.takeWhile_cons, List.dropWhile_cons, h]

/-- The head of a `dropWhile` remainder fails the predicate. -/
theorem dropWhile_head_false (p : Char → Bool) :
    ∀ (l : List Char) (c : Char) (cs : List Char),
      l.dropWhile p = c :: cs → p c = false := by
  intro l
  induction l with
  | nil => intro c cs h; cases h
  | cons x rest ih =>
    intro c cs h
    by_cases hx : p x
    · exact ih c cs (by simpa [List.dropWhile_cons, hx] using h)
    · rw [List.dropWhile_cons, if_neg (by simp [hx])] at h
      cases h
      simpa using hx

/-- A punctuation token character is not whitespace. -/
theorem punct_not_space {c : Char} (h : punctTokChar c = true) :
    pyIsSpace c = false := by
  simp only [punctTokChar, Bool.or_eq_true, decide_eq_true_eq] at h
  rcases h with ((h | h) | h) | h <;> subst h <;> decide

/-- A punctuation token character is not a digit. -/
theorem punct_not_digit {c : Char} (h : punctTokChar c = true) :
    c.isDigit = false := by
  simp only [punctTokChar, Bool.or_eq_true, decide_eq_true_eq] at h
  rcases h with ((h | h) | h) | h <;> subst h <;> decide

/-- A token that starts at a non-word character (whitespace or punctuation)
strips to something that is never a digit string: a whitespace run strips to
the empty string, a punctuation mark to itself. -/
theorem tokHead_nonDigit :
    ∀ (fuel : Nat) (c : Char) (cs : List Char) (t : String),
      plainTokChar c = false →
      (tokenizeGo fuel (c :: cs)).head? = some t →
      pyIsDigitStr (pyStrip t) = false := by
  intro fuel c cs t hc ht
  cases fuel with
  | zero => cases ht
  | succ fuel =>
    by_cases hsp : pyIsSpace c
    · rw [show tokenizeGo (fuel + 1) (c :: cs) =
          String.mk ((c :: cs).takeWhile pyIsSpace) ::
            tokenizeGo fuel ((c :: cs).drop ((c :: cs).takeWhile pyIsSpace).length)
        from by rw [tokenizeGo]; rw [if_pos hsp]] at ht
      rw [List.head?_cons, Option.some.injEq] at ht
      subst ht
      have hall : ∀ x ∈ (c :: cs).takeWhile pyIsSpace, pyIsSpace x :=
        fun x hx => List.mem_takeWhile_imp hx
      have hnil : ((c :: cs).takeWhile pyIsSpace).dropWhile pyIsSpace = [] :=
        List.dropWhile_eq_nil_iff.mpr hall
      simp [pyStrip, pyStripList, pyIsDigitStr, hnil]
    · by_cases hpu : punctTokChar c
      · rw [show tokenizeGo (fuel + 1) (c :: cs) =
            String.mk [c] :: tokenizeGo fuel cs
          from by rw [tokenizeGo]; rw [if_neg (by simp [hsp]), if_pos hpu]] at ht
        rw [List.head?_cons, Option.some.injEq] at ht
        subst ht
        have h1 : pyIsSpace c = false := punct_not_space hpu
        have h2 : c.isDigit = false := punct_not_digit hpu
        simp [pyStrip, pyStripList, pyIsDigitStr, List.dropWhile_cons, h1, h2]
      · exfalso
        simp only [Bool.not_eq_true] at hsp hpu
        rw [plainTokChar, hsp, hpu] at hc
        simp at hc

/-- Structure of one tokenizer step: the stream is a first token followed by a
tokenizer run on a suffix, and the first token is either not a word token
(whitespace run, punctuation mark, or merged `GROUP BY`/`ORDER BY` keyword) or
the following token, if any, strips to a non-digit string. -/
theorem tokenizeGo_shape (fuel : Nat) (c : Char) (rest : List Char) :
    ∃ tok0 next, tokenizeGo (fuel + 1) (c :: rest) = tok0 :: tokenizeGo fuel next ∧
      (tokIsPlain tok0 = false ∨
        ∀ t, (tokenizeGo fuel next).head? = some t →
          pyIsDigitStr (pyStrip t) = false) := by
  by_cases hsp : pyIsSpace c
  · refine ⟨String.mk ((c :: rest).takeWhile pyIsSpace),
      (c :: rest).drop ((c :: rest).takeWhile pyIsSpace).length,
      by rw [tokenizeGo]; rw [if_pos hsp], Or.inl ?_⟩
    have : plainTokChar c = false := by simp [plainTokChar, hsp]
    simp [tokIsPlain, List.takeWhile_cons, hsp, this]
  · by_cases hpu : punctTokChar c
    · refine ⟨String.mk [c], rest,
        by rw [tokenizeGo]; rw [if_neg (by simp [hsp]), if_pos hpu], Or.inl ?_⟩
      have : plainTokChar c = false := by simp [plainTokChar, hpu]
      simp [tokIsPlain, this]
    · have hpl : plainTokChar c = true := by simp [plainTokChar, hsp, hpu]
      have hplainTail :
          ∀ t, (tokenizeGo fuel ((c :: rest).drop
              ((c :: rest).takeWhile plainTokChar).length)).head? = some t →
            pyIsDigitStr (pyStrip t) = false := by
        rw [drop_takeWhile_length]
        intro t ht
        rcases hd : (c :: rest).dropWhile plainTokChar with _ | ⟨c2, cs2⟩
        · rw [hd, tokenizeGo_nil] at ht; cases ht
        · rw [hd] at ht
          exact tokHead_nonDigit fuel c2 cs2 t (dropWhile_head_false _ _ _ _ hd) ht
      rw [tokenizeGo]
      rw [if_neg (by simp [hsp]), if_neg (by simp [hpu])]
      by_cases hkw : strUpper (String.mk ((c :: rest).takeWhile plainTokChar)) = "GROUP"
          || strUpper (String.mk ((c :: rest).takeWhile plainTokChar)) = "ORDER"
      · rw [if_pos hkw]
        by_cases hby : (!(((c :: rest).drop ((c :: rest).takeWhile plainTokChar).length).takeWhile pyIsSpace).isEmpty
            && strUpper (String.mk ((((c :: rest).drop ((c :: rest).takeWhile plainTokChar).length).drop
              (((c :: rest).drop ((c :: rest).takeWhile plainTokChar).length).takeWhile pyIsSpace).length).takeWhile plainTokChar)) = "BY") = true
        · rw [if_pos hby]
          refine ⟨_, _, rfl, Or.inl ?_⟩
          rcases hws : ((c :: rest).drop ((c :: rest).takeWhile plainTokChar).length).takeWhile pyIsSpace
            with _ | ⟨w, ws'⟩
          · rw [hws] at hby; simp at hby
          · have hw : pyIsSpace w := by
              have hmem : w ∈ ((c :: rest).drop ((c :: rest).takeWhile plainTokChar).length).takeWhile pyIsSpace := by
                rw [hws]; exact List.mem_cons_self _ _
              exact List.mem_takeWhile_imp hmem
            have hwp : plainTokChar w = false := by simp [plainTokChar, hw]
            simp only [tokIsPlain, Bool.and_eq_false_iff]
            right
            rw [Bool.eq_false_iff]
            intro hall
            rw [List.all_eq_true] at hall
            have hwp2 := hall w (by simp)
            rw [hwp] at hwp2
            cases hwp2
        · rw [if_neg hby]
          exact ⟨_, _, rfl, Or.inr hplainTail⟩
      · rw [if_neg hkw]
        exact ⟨_, _, rfl, Or.inr hplainTail⟩

/-- In a tokenized stream the token after a word token, when present, strips
to a non-digit string (it is a whitespace run or a punctuation mark): word
runs are maximal, so two word tokens are never adjacent. -/
theorem tokenizeGo_adjacent :
    ∀ (fuel : Nat) (cs : List Char) (i : Nat) (t t' : String),
      (tokenizeGo fuel cs).get? i = some t →
      tokIsPlain t = true →
      (tokenizeGo fuel cs).get? (i + 1) = some t' →
      pyIsDigitStr (pyStrip t') = false := by
  intro fuel
  induction fuel with
  | zero => intro cs i t t' ht; cases ht
  | succ fuel ih =>
    intro cs i t t' ht hpl ht'
    cases cs with
    | nil => cases ht
    | cons c rest =>
      obtain ⟨tok0, next, heq, hdisj⟩ := tokenizeGo_shape fuel c rest
      rw [heq] at ht ht'
      cases i with
      | zero =>
        rw [List.get?_cons_zero, Option.some.injEq] at ht
        subst ht
        rcases hdisj with hno | hnext
        · rw [hpl] at hno; cases hno
        · rcases htl : tokenizeGo fuel next with _ | ⟨a, tl⟩
          · rw [List.get?_cons_succ, htl] at ht'; cases ht'
          · rw [List.get?_cons_succ, htl, List.get?_cons_zero,
              Option.some.injEq] at ht'
            subst ht'
            exact hnext a (by rw [htl]; rfl)
      | succ j =>
        rw [List.get?_cons_succ] at ht ht'
        exact ih next j t t' ht hpl ht'

/-- C10, counterexample.  The parser does not record `LIMIT 0` (nor any other
LIMIT/OFFSET literal) on the standard SELECT path: the token after the LIMIT
keyword in the sqlparse stream is a whitespace token, `_parse_limit_clause`
inspects it without skipping whitespace, and its `isdigit` test fails. -/
theorem claim_C10_counterexample :
    (parseSQL "SELECT name FROM client LIMIT 0").map (fun q => q.limit)
      = some none ∧
    (parseSQL "SELECT name FROM client LIMIT 0").map (fun q => q.limit)
      ≠ some (some 0) ∧
    (parseSQL "SELECT name FROM client LIMIT 5 OFFSET 0").map
      (fun q => (q.limit, q.offset)) = some (none, none) :=
  ⟨rfl,
   fun h => by
     rw [show (parseSQL "SELECT name FROM client LIMIT 0").map (fun q => q.limit)
         = some none from rfl] at h
     exact Option.noConfusion (Option.some.inj h),
   rfl⟩

/-- C10, amended.  The serializer half of the claim holds — LIMIT/OFFSET
clauses are emitted only for truthy (nonzero) stored values — but the parser
half does not: on any tokenized statement, `_parse_limit_clause` and
`_parse_offset_clause` look at the token immediately after the keyword
without skipping whitespace; word runs are maximal, so that token is a
whitespace run or punctuation mark whose stripped text never passes
`isdigit`, and the parser records no LIMIT/OFFSET value at all (for `0` or
any other literal).  Concretely, `SELECT name FROM client LIMIT 0` parses
with `limit = None`, and even `LIMIT 5` never reaches the output. -/
theorem claim_C10_amended :
    (∀ (s : String) (i : Nat) (q : SQLQuery) (tok : String),
      (tokenizeModel s).get? i = some tok →
      tokIsPlain tok = true →
      parseLimitClause (tokenizeModel s) (i + 1) q = (i + 1, q) ∧
      parseOffsetClause (tokenizeModel s) (i + 1) q = (i + 1, q)) ∧
    (parseSQL "SELECT name FROM client LIMIT 0").map (fun q => q.limit)
      = some none ∧
    (convertStandard "SELECT name FROM client LIMIT 5" "" {}).map (fun p => p.1) =
      some "SELECT ?o0\nWHERE \x7b\n  ?s0 <http://example.org/ontology/name> ?o0 .\n\x7d" ∧
    (∀ q : SPARQLQuery, q.limit = some 0 →
      buildSelectParts q = buildSelectParts { q with limit := none }) ∧
    (∀ q : SPARQLQuery, q.offset = some 0 →
      buildSelectParts q = buildSelectParts { q with offset := none }) ∧
    (∀ (o : Option Nat) (n : Nat),
      limitOffsetParts (some (n + 1)) o =
        ["LIMIT " ++ natRepr (n + 1)] ++
        (if natOptTruthy o then ["OFFSET " ++ natRepr (o.getD 0)] else [])) := by
  refine ⟨?_, rfl, rfl, ?_, ?_, ?_⟩
  · intro s i q tok htok hplain
    constructor
    · rw [parseLimitClause]
      rcases hnx : (tokenizeModel s).get? (i + 1) with _ | t'
      · rfl
      · have hnd := tokenizeGo_adjacent (s.data.length + 1) s.data i tok t' htok hplain hnx
        simp only [hnd, Bool.false_eq_true, if_false]
    · rw [parseOffsetClause]
      rcases hnx : (tokenizeModel s).get? (i + 1) with _ | t'
      · rfl
      · have hnd := tokenizeGo_adjacent (s.data.length + 1) s.data i tok t' htok hplain hnx
        simp only [hnd, Bool.false_eq_true, if_false]
  · intro q h
    simp [buildSelectParts, limitOffsetParts, h, natOptTruthy]
  · intro q h
    simp [buildSelectParts, limitOffsetParts, h, natOptTruthy]
  · intro o n
    simp [limitOffsetParts, natOptTruthy]

/-- Witness for C10's amended theorem at the zero-limit query: the `LIMIT`
keyword is token 8 of the stream, the clause parser leaves the query
unchanged from position 9, and a stored zero would be suppressed by the
serializer. -/
theorem claim_C10_witness :
    (tokenizeModel "SELECT name FROM client LIMIT 0").get? 8 = some "LIMIT" ∧
    tokIsPlain "LIMIT" = true ∧
    parseLimitClause (tokenizeModel "SELECT name FROM client LIMIT 0") 9
      { type := .select } = (9, { type := .select }) ∧
    buildSelectParts ({ limit := some 0 } : SPARQLQuery) =
      buildSelectParts { ({ limit := some 0 } : SPARQLQuery) with limit := none } :=
  ⟨by decide, by decide,
   (claim_C10_amended.1 "SELECT name FROM client LIMIT 0" 8 { type := .select }
     "LIMIT" (by decide) (by decide)).1,
   claim_C10_amended.2.2.2.1 { limit := some 0 } rfl⟩

/-- C5.  Grouping/projection correlation: a GROUP BY attribute whose variable
is found among the projection bindings (predicate identity or name heuristic,
`_find_select_var_for_attribute`) reuses exactly that variable and emits no
supporting triple; a dedicated `?{name}_group` variable with its supporting
triple is allocated only when no projection binding is found (and no
matching pattern already exists).  On the spec's example
`SELECT category, COUNT(name) FROM product GROUP BY category` the grouping
variable is `?o0`, the very projection variable bound for `category`. -/
theorem claim_C5_grouping_correlation :
    (∀ (attr : Attribute) (existing : List Triple) (sv : List String)
        (sp : List Triple) (st : GHState) (v : String),
      strLower attr.name ≠ "subject" → sv.isEmpty = false →
      findSelectVarForAttribute attr sv sp = some v →
      (convertGroupBy [attr] existing sv sp st).1 = ([v], [])) ∧
    (∀ (attr : Attribute) (existing : List Triple) (sv : List String)
        (sp : List Triple) (st : GHState),
      strLower attr.name ≠ "subject" →
      sv.isEmpty = true ∨ findSelectVarForAttribute attr sv sp = none →
      patternExistsSP existing
        (ghGetSubjectVar (if existing.isEmpty then st.subjectVars
          else ghExtractSubjectVars st.subjectVars existing) attr.relation).1
        (predURI attr.name) = false →
      (convertGroupBy [attr] existing sv sp st).1 =
        (["?" ++ attr.name ++ "_group"],
         [⟨(ghGetSubjectVar (if existing.isEmpty then st.subjectVars
              else ghExtractSubjectVars st.subjectVars existing) attr.relation).1,
           predURI attr.name, "?" ++ attr.name ++ "_group"⟩])) ∧
    findSelectVarForAttribute ⟨"", "category", none, none⟩
        (selectConvert [⟨"", "category", none, none⟩,
                        ⟨"", "name", none, some .count⟩]).1
        (selectConvert [⟨"", "category", none, none⟩,
                        ⟨"", "name", none, some .count⟩]).2 = some "?o0" ∧
    (convertGroupBy [⟨"", "category", none, none⟩]
        (selectConvert [⟨"", "category", none, none⟩,
                        ⟨"", "name", none, some .count⟩]).2
        (selectConvert [⟨"", "category", none, none⟩,
                        ⟨"", "name", none, some .count⟩]).1
        (selectConvert [⟨"", "category", none, none⟩,
                        ⟨"", "name", none, some .count⟩]).2 {}).1 = (["?o0"], []) ∧
    (selectConvert [⟨"", "category", none, none⟩,
                    ⟨"", "name", none, some .count⟩]).1.getD 0 "" = "?o0" ∧
    (convertStandard "SELECT category, COUNT(name) FROM product GROUP BY category"
        "" {}).map (fun p => p.1) =
      some ("SELECT ?o0 (COUNT(?o1) AS ?o1_agg)\nWHERE \x7b\n  ?s0 <http://example.org/ontology/category> ?o0 .\n  ?s0 <http://example.org/ontology/name> ?o1 .\n\x7d\nGROUP BY ?o0") := by
  refine ⟨?_, ?_, rfl, rfl, rfl, rfl⟩
  · intro attr existing sv sp st v hsub hne hfind
    simp [convertGroupBy, convertGroupByGo, hsub, hne, hfind]
  · intro attr existing sv sp st hsub hfind hpat
    simp only [convertGroupBy]
    generalize hm : (if existing.isEmpty then st.subjectVars
        else ghExtractSubjectVars st.subjectVars existing) = m0 at hpat ⊢
    rcases hfind with h | h
    · simp [convertGroupByGo, hsub, h, hpat]
    · by_cases he : sv.isEmpty
      · simp [convertGroupByGo, hsub, he, hpat]
      · simp [convertGroupByGo, hsub, he, h, hpat]

/-- Witness for C5 at the spec's own example: the reuse branch fires for the
`category` grouping attribute with the projection bindings of
`SELECT category, COUNT(name)`. -/
theorem claim_C5_witness :
    strLower (Attribute.mk "" "category" none none).name ≠ "subject" ∧
    (convertGroupBy [⟨"", "category", none, none⟩]
        (selectConvert [⟨"", "category", none, none⟩,
                        ⟨"", "name", none, some .count⟩]).2
        (selectConvert [⟨"", "category", none, none⟩,
                        ⟨"", "name", none, some .count⟩]).1
        (selectConvert [⟨"", "category", none, none⟩,
                        ⟨"", "name", none, some .count⟩]).2 {}).1 = (["?o0"], []) :=
  ⟨by decide,
   claim_C5_grouping_correlation.1 ⟨"", "category", none, none⟩
     (selectConvert [⟨"", "category", none, none⟩,
                     ⟨"", "name", none, some .count⟩]).2
     (selectConvert [⟨"", "category", none, none⟩,
                     ⟨"", "name", none, some .count⟩]).1
     (selectConvert [⟨"", "category", none, none⟩,
                     ⟨"", "name", none, some .count⟩]).2 {} "?o0"
     (by decide) (by decide) (by decide)⟩

set_option maxRecDepth 4000 in
/-- C6.  Combined-query limit placement on the spec's example
`SELECT name FROM client UNION SELECT name FROM product LIMIT 10`: the query
enters the union handler (the text contains UNION), the trailing LIMIT is
located at position 54 and stripped before the UNION split, both branches are
LIMIT-free plain SELECTs converted on the standard path, and the output
carries `LIMIT 10` exactly once, after the combined bracketed pattern. -/
theorem claim_C6_union_limit_placement :
    strContains (strUpper "SELECT name FROM client UNION SELECT name FROM product LIMIT 10")
      "UNION" = true ∧
    reSearchOrderBy "SELECT name FROM client UNION SELECT name FROM product LIMIT 10"
      = none ∧
    reSearchLimitNum "SELECT name FROM client UNION SELECT name FROM product LIMIT 10"
      = some (54, "10") ∧
    String.mk ("SELECT name FROM client UNION SELECT name FROM product LIMIT 10".data.take 54)
      = "SELECT name FROM client UNION SELECT name FROM product" ∧
    splitUnionParts "SELECT name FROM client UNION SELECT name FROM product" =
      ["SELECT name FROM client", "SELECT name FROM product"] ∧
    (strContains "SELECT name FROM client" "LIMIT" = false ∧
     strContains "SELECT name FROM product" "LIMIT" = false) ∧
    (needsEnhanced "SELECT name FROM client" = false ∧
     needsEnhanced "SELECT name FROM product" = false ∧
     strContains (strUpper "SELECT name FROM client") "UNION" = false ∧
     strContains (strUpper "SELECT name FROM product") "UNION" = false) ∧
    handleUnionWith convertBranchStd
        "SELECT name FROM client UNION SELECT name FROM product LIMIT 10" =
      some "SELECT ?o0\nWHERE \x7b\n  \x7b ?s0 <http://example.org/ontology/name> ?o0 . \x7d\n  UNION\n  \x7b ?s0 <http://example.org/ontology/name> ?o0 . \x7d\n\x7d\nLIMIT 10" ∧
    strCount "SELECT ?o0\nWHERE \x7b\n  \x7b ?s0 <http://example.org/ontology/name> ?o0 . \x7d\n  UNION\n  \x7b ?s0 <http://example.org/ontology/name> ?o0 . \x7d\n\x7d\nLIMIT 10"
      "LIMIT" = 1 ∧
    strEndsWith "SELECT ?o0\nWHERE \x7b\n  \x7b ?s0 <http://example.org/ontology/name> ?o0 . \x7d\n  UNION\n  \x7b ?s0 <http://example.org/ontology/name> ?o0 . \x7d\n\x7d\nLIMIT 10"
      "\x7d\nLIMIT 10" = true :=
  ⟨rfl, rfl, rfl, rfl, rfl, ⟨rfl, rfl⟩, ⟨rfl, rfl, rfl, rfl⟩, rfl, rfl, rfl⟩

/-! ## Lemmas about join variables -/

theorem natRepr_data_inj {m n : Nat} (h : (natRepr m).data = (natRepr n).data) :
    m = n := by
  have hm : digitsVal (natReprAux (m + 1) m) = m :=
    digitsVal_natReprAux (m + 1) m (by omega)
  have hn : digitsVal (natReprAux (n + 1) n) = n :=
    digitsVal_natReprAux (n + 1) n (by omega)
  have hdata : natReprAux (m + 1) m = natReprAux (n + 1) n := h
  rw [hdata, hn] at hm
  exact hm.symm

theorem joinVar_inj {a b : Nat} (h : joinVar a = joinVar b) : a = b := by
  have h2 := congrArg String.data h
  simp only [joinVar, String.data_append] at h2
  exact natRepr_data_inj (List.append_cancel_left h2)

theorem listStartsWith_append (a b : List Char) :
    listStartsWith (a ++ b) a = true := by
  induction a with
  | nil => cases b <;> rfl
  | cons c cs ih => simp [listStartsWith, ih]

theorem joinVar_starts (n : Nat) :
    listStartsWith (joinVar n).data "?join_".data = true := by
  have : (joinVar n).data = "?join_".data ++ (natRepr n).data := by
    simp [joinVar, String.data_append]
  rw [this]
  exact listStartsWith_append _ _

/-- C3.  Join triple shape: a join between two non-`subject` attributes adds
exactly two triples that share the object variable `?join_{len}`, one per
side's predicate, rooted at the two relations' subject variables; a join with
exactly one `subject` side adds exactly one triple binding the named side's
predicate between the two subject variables.  The shared variable is fresh:
it differs from the object of every previously produced pattern (under the
run invariant that earlier objects are either earlier join variables or not
`?join_`-prefixed) and from every `?s`-prefixed subject variable. -/
theorem claim_C3_join_triples :
    (∀ (jc : JoinCondition) (m : List (String × String)) (patterns : List Triple),
      strLower jc.left_operand.name ≠ "subject" →
      strLower jc.right_operand.name ≠ "subject" →
      (processJoinsGo m patterns [jc]).1 =
        patterns ++
          [⟨(allocSubjectVar m jc.left_operand.relation).1,
            predURI jc.left_operand.name, joinVar patterns.length⟩,
           ⟨(allocSubjectVar (allocSubjectVar m jc.left_operand.relation).2
               jc.right_operand.relation).1,
            predURI jc.right_operand.name, joinVar patterns.length⟩]) ∧
    (∀ (jc : JoinCondition) (m : List (String × String)) (patterns : List Triple),
      strLower jc.left_operand.name = "subject" →
      strLower jc.right_operand.name ≠ "subject" →
      (processJoinsGo m patterns [jc]).1 =
        patterns ++
          [⟨(allocSubjectVar (allocSubjectVar m jc.left_operand.relation).2
               jc.right_operand.relation).1,
            predURI jc.right_operand.name,
            (allocSubjectVar m jc.left_operand.relation).1⟩]) ∧
    (∀ (jc : JoinCondition) (m : List (String × String)) (patterns : List Triple),
      strLower jc.left_operand.name ≠ "subject" →
      strLower jc.right_operand.name = "subject" →
      (processJoinsGo m patterns [jc]).1 =
        patterns ++
          [⟨(allocSubjectVar m jc.left_operand.relation).1,
            predURI jc.left_operand.name,
            (allocSubjectVar (allocSubjectVar m jc.left_operand.relation).2
               jc.right_operand.relation).1⟩]) ∧
    (∀ (patterns : List Triple),
      (∀ t ∈ patterns,
        (∃ k, k < patterns.length ∧ t.object = joinVar k) ∨
        listStartsWith t.object.data "?join_".data = false) →
      ∀ t ∈ patterns, t.object ≠ joinVar patterns.length) ∧
    (∀ (v : String) (n : Nat),
      listStartsWith v.data "?s".data = true → joinVar n ≠ v) := by
  refine ⟨?_, ?_, ?_, ?_, ?_⟩
  · intro jc m patterns hL hR
    simp [processJoinsGo, hL, hR]
  · intro jc m patterns hL hR
    simp [processJoinsGo, hL, hR]
  · intro jc m patterns hL hR
    simp [processJoinsGo, hL, hR]
  · intro patterns hinv t ht heq
    rcases hinv t ht with ⟨k, hk, hobj⟩ | hpref
    · rw [heq] at hobj
      exact absurd (joinVar_inj hobj.symm) (by omega)
    · rw [heq] at hpref
      rw [joinVar_starts patterns.length] at hpref
      simp at hpref
  · intro v n hv heq
    rw [← heq] at hv
    have hdata : (joinVar n).data = '?' :: 'j' :: 'o' :: 'i' :: 'n' :: '_' :: (natRepr n).data := by
      simp [joinVar, String.data_append]
    rw [hdata] at hv
    simp [listStartsWith] at hv

/-- Witness for C3 at a concrete two-sided attribute join (and a concrete
subject-side join). -/
theorem claim_C3_witness :
    strLower "email" ≠ "subject" ∧ strLower "buyer" ≠ "subject" ∧
    (processJoinsGo [] []
        [⟨⟨"client", "email", none, none⟩, ⟨"orders", "buyer", none, none⟩, "="⟩]).1 =
      [⟨"?s0", predURI "email", joinVar 0⟩, ⟨"?s1", predURI "buyer", joinVar 0⟩] ∧
    (processJoinsGo [] []
        [⟨⟨"client", "subject", none, none⟩, ⟨"orders", "buyer", none, none⟩, "="⟩]).1 =
      [⟨"?s1", predURI "buyer", "?s0"⟩] :=
  ⟨by decide, by decide,
   claim_C3_join_triples.1
     ⟨⟨"client", "email", none, none⟩, ⟨"orders", "buyer", none, none⟩, "="⟩ [] []
     (by decide) (by decide),
   claim_C3_join_triples.2.1
     ⟨⟨"client", "subject", none, none⟩, ⟨"orders", "buyer", none, none⟩, "="⟩ [] []
     (by decide) (by decide)⟩

/-! ## Lemmas about the WHERE converter's memoized subject-variable state -/

/-- Binding preservation between two association lists. -/
def mapLE (m m' : List (String × String)) : Prop :=
  ∀ k v, alookup m k = some v → alookup m' k = some v

theorem mapLE_refl (m : List (String × String)) : mapLE m m :=
  fun _ _ h => h

theorem mapLE_trans {a b c : List (String × String)}
    (h1 : mapLE a b) (h2 : mapLE b c) : mapLE a c :=
  fun k v h => h2 k v (h1 k v h)

theorem alookup_append_self {m : List (String × String)} {r v : String}
    (h : alookup m r = none) : alookup (m ++ [(r, v)]) r = some v := by
  induction m with
  | nil => simp [alookup]
  | cons p rest ih =>
    obtain ⟨k0, v0⟩ := p
    by_cases hk : k0 = r
    · simp [alookup, hk] at h
    · simp [alookup, hk] at h ⊢
      exact ih h

theorem alloc_le (m : List (String × String)) (r : String) :
    mapLE m (allocSubjectVar m r).2 := by
  intro k v h
  unfold allocSubjectVar
  cases hl : alookup m r with
  | some w => simpa using h
  | none => simpa using alookup_append_left h _

theorem alloc_self (m : List (String × String)) (r : String) :
    alookup (allocSubjectVar m r).2 r = some (allocSubjectVar m r).1 := by
  unfold allocSubjectVar
  cases hl : alookup m r with
  | some w => simpa using hl
  | none => simpa using alookup_append_self hl

theorem alloc_replay {m m' : List (String × String)} {r : String}
    (h : alookup m' r = some (allocSubjectVar m r).1) :
    allocSubjectVar m' r = ((allocSubjectVar m r).1, m') := by
  unfold allocSubjectVar at h ⊢
  cases hl : alookup m' r with
  | some w =>
    rw [hl] at h
    simp at h
    simp [h]
  | none => rw [hl] at h; simp at h

theorem pj_mono (js : List JoinCondition) :
    ∀ m p, mapLE m (processJoinsGo m p js).2 := by
  induction js with
  | nil => intro m p; exact mapLE_refl m
  | cons jc rest ih =>
    intro m p
    have hle : mapLE m (allocSubjectVar (allocSubjectVar m jc.left_operand.relation).2
        jc.right_operand.relation).2 :=
      mapLE_trans (alloc_le m jc.left_operand.relation)
        (alloc_le (allocSubjectVar m jc.left_operand.relation).2 jc.right_operand.relation)
    by_cases hL : strLower jc.left_operand.name = "subject" <;>
      by_cases hR : strLower jc.right_operand.name = "subject" <;>
      simp [processJoinsGo, hL, hR] <;>
      exact mapLE_trans hle (ih _ _)

theorem pb_mono (conds : List WhereCondition) :
    ∀ m, mapLE m (processBoolsGo m conds).2 := by
  induction conds with
  | nil => intro m; exact mapLE_refl m
  | cons cond rest ih =>
    intro m
    have hle : mapLE m (allocSubjectVar m cond.attr.relation).2 :=
      alloc_le m cond.attr.relation
    by_cases hs : strLower cond.attr.name = "subject" <;>
      simp [processBoolsGo, hs] <;>
      exact mapLE_trans hle (ih _)

theorem pj_replay (js : List JoinCondition) :
    ∀ m p m', mapLE (processJoinsGo m p js).2 m' →
      processJoinsGo m' p js = ((processJoinsGo m p js).1, m') := by
  induction js with
  | nil => intro m p m' _; rfl
  | cons jc rest ih =>
    intro m p m' hle
    have h1 : alookup (allocSubjectVar (allocSubjectVar m jc.left_operand.relation).2
        jc.right_operand.relation).2 jc.left_operand.relation =
        some (allocSubjectVar m jc.left_operand.relation).1 :=
      alloc_le _ jc.right_operand.relation _ _
        (alloc_self m jc.left_operand.relation)
    have h2 : alookup (allocSubjectVar (allocSubjectVar m jc.left_operand.relation).2
        jc.right_operand.relation).2 jc.right_operand.relation =
        some (allocSubjectVar (allocSubjectVar m jc.left_operand.relation).2
          jc.right_operand.relation).1 :=
      alloc_self _ jc.right_operand.relation
    by_cases hL : strLower jc.left_operand.name = "subject" <;>
      by_cases hR : strLower jc.right_operand.name = "subject" <;>
      · simp only [processJoinsGo, hL, hR, if_pos, if_neg, ite_true, ite_false,
        reduceIte] at hle ⊢
        first
        | (have hle2 : mapLE (allocSubjectVar (allocSubjectVar m jc.left_operand.relation).2
              jc.right_operand.relation).2 m' :=
            mapLE_trans (pj_mono rest _ _) hle
           have e1 : allocSubjectVar m' jc.left_operand.relation =
              ((allocSubjectVar m jc.left_operand.relation).1, m') :=
            alloc_replay (hle2 _ _ h1)
           have e2 : allocSubjectVar m' jc.right_operand.relation =
              ((allocSubjectVar (allocSubjectVar m jc.left_operand.relation).2
                 jc.right_operand.relation).1, m') :=
            alloc_replay (hle2 _ _ h2)
           simp only [e1, e2]
           exact ih _ _ _ hle)

theorem pb_replay (conds : List WhereCondition) :
    ∀ m m', mapLE (processBoolsGo m conds).2 m' →
      processBoolsGo m' conds = ((processBoolsGo m conds).1, m') := by
  induction conds with
  | nil => intro m m' _; rfl
  | cons cond rest ih =>
    intro m m' hle
    have h1 : alookup (allocSubjectVar m cond.attr.relation).2 cond.attr.relation =
        some (allocSubjectVar m cond.attr.relation).1 :=
      alloc_self m cond.attr.relation
    by_cases hs : strLower cond.attr.name = "subject" <;>
      · simp only [processBoolsGo, hs, if_pos, if_neg, ite_true, ite_false,
          reduceIte] at hle ⊢
        have hle2 : mapLE (allocSubjectVar m cond.attr.relation).2 m' :=
          mapLE_trans (pb_mono rest _) hle
        have e1 : allocSubjectVar m' cond.attr.relation =
            ((allocSubjectVar m cond.attr.relation).1, m') :=
          alloc_replay (hle2 _ _ h1)
        simp only [e1]
        simp [ih _ _ hle]

theorem extract_preserve_self (ps : List Triple) :
    ∀ m k, alookup m k = some k →
      alookup (extractSubjectVars m ps) k = some k := by
  induction ps with
  | nil => intro m k h; exact h
  | cons p rest ih =>
    intro m k h
    have hstep : extractSubjectVars m (p :: rest) =
        extractSubjectVars (aset m p.subject p.subject) rest := by
      simp [extractSubjectVars]
    rw [hstep]
    apply ih
    by_cases hp : p.subject = k
    · subst hp; simpa using alookup_aset_self m p.subject p.subject
    · rw [alookup_aset_of_ne hp]; exact h

theorem extract_binds (ps : List Triple) :
    ∀ m, ∀ p ∈ ps, alookup (extractSubjectVars m ps) p.subject = some p.subject := by
  induction ps with
  | nil => intro m p hp; simp at hp
  | cons q rest ih =>
    intro m p hp
    have hstep : extractSubjectVars m (q :: rest) =
        extractSubjectVars (aset m q.subject q.subject) rest := by
      simp [extractSubjectVars]
    rw [hstep]
    rcases List.mem_cons.mp hp with hq | hq
    · subst hq
      exact extract_preserve_self rest _ _ (alookup_aset_self m p.subject p.subject)
    · exact ih _ p hq

theorem extract_id (ps : List Triple) :
    ∀ m, (∀ p ∈ ps, alookup m p.subject = some p.subject) →
      extractSubjectVars m ps = m := by
  induction ps with
  | nil => intro m _; rfl
  | cons q rest ih =>
    intro m h
    have hq := h q (List.mem_cons_self q rest)
    have hstep : extractSubjectVars m (q :: rest) =
        extractSubjectVars (aset m q.subject q.subject) rest := by
      simp [extractSubjectVars]
    rw [hstep, aset_eq_of_alookup hq]
    exact ih m (fun p hp => h p (List.mem_cons_of_mem q hp))

theorem whereConvert_rerun (joins : List JoinCondition) (conds : List WhereCondition)
    (existing : List Triple) (st : WState) :
    whereConvert joins conds existing (whereConvert joins conds existing st).2 =
      whereConvert joins conds existing st := by
  by_cases hee : existing.isEmpty
  · have hex : existing = [] := by
      cases existing with
      | nil => rfl
      | cons a l => simp at hee
    subst hex
    by_cases hje : (joins.isEmpty && conds.isEmpty) = true
    · simp only [Bool.and_eq_true, List.isEmpty_iff] at hje
      obtain ⟨hj, hc⟩ := hje
      subst hj; subst hc
      rfl
    · have hjeF : (joins.isEmpty && conds.isEmpty) = false := by simpa using hje
      have hpj' := pj_replay joins st.subjectVars [] _
        (pb_mono conds (processJoinsGo st.subjectVars [] joins).2)
      have hpb' := pb_replay conds (processJoinsGo st.subjectVars [] joins).2 _
        (mapLE_refl _)
      simp [whereConvert, hjeF, hpj', hpb']
  · have hex : existing.isEmpty = false := by simpa using hee
    have hbinds : ∀ p ∈ existing,
        alookup (extractSubjectVars st.subjectVars existing) p.subject =
          some p.subject :=
      extract_binds existing st.subjectVars
    have hLE1 : mapLE (extractSubjectVars st.subjectVars existing)
        (processBoolsGo (processJoinsGo (extractSubjectVars st.subjectVars existing)
          [] joins).2 conds).2 :=
      mapLE_trans (pj_mono joins _ []) (pb_mono conds _)
    have hbinds2 : ∀ p ∈ existing,
        alookup (processBoolsGo (processJoinsGo
            (extractSubjectVars st.subjectVars existing) [] joins).2 conds).2
          p.subject = some p.subject :=
      fun p hp => hLE1 _ _ (hbinds p hp)
    have hext2 := extract_id existing _ hbinds2
    have hext1 := extract_id existing _ hbinds
    by_cases hje : (joins.isEmpty && conds.isEmpty) = true
    · simp only [Bool.and_eq_true, List.isEmpty_iff] at hje
      obtain ⟨hj, hc⟩ := hje
      subst hj; subst hc
      simp [whereConvert, hex, hext1]
    · have hjeF : (joins.isEmpty && conds.isEmpty) = false := by simpa using hje
      have hpj' := pj_replay joins (extractSubjectVars st.subjectVars existing) [] _
        (pb_mono conds (processJoinsGo
          (extractSubjectVars st.subjectVars existing) [] joins).2)
      have hpb' := pb_replay conds (processJoinsGo
          (extractSubjectVars st.subjectVars existing) [] joins).2 _
        (mapLE_refl _)
      simp [whereConvert, hex, hjeF, hext2, hpj', hpb']

/-! ## Lemmas about the GROUP BY / HAVING converter state and the full
conversion pipeline rerun -/


/-- The subject variable `_get_subject_var` returns on a given map: the first
stored value of a non-empty map, the allocated `?s0` on an empty one. -/
def ghEffVal (m : List (String × String)) : String :=
  match m with
  | [] => "?s" ++ natRepr 0
  | (_, v) :: _ => v

theorem ghGet_fst (m : List (String × String)) (r : String) :
    (ghGetSubjectVar m r).1 = ghEffVal m := by
  cases m with
  | nil => rfl
  | cons p rest => obtain ⟨k, v⟩ := p; rfl

theorem ghGet_eff (m : List (String × String)) (r : String) :
    ghEffVal (ghGetSubjectVar m r).2 = ghEffVal m := by
  cases m with
  | nil => rfl
  | cons p rest => obtain ⟨k, v⟩ := p; rfl

theorem ghGet_snd_of_ne {m : List (String × String)} (r : String) (h : m ≠ []) :
    (ghGetSubjectVar m r).2 = m := by
  cases m with
  | nil => exact absurd rfl h
  | cons p rest => obtain ⟨k, v⟩ := p; rfl

theorem ghGet_snd_ne (m : List (String × String)) (r : String) :
    (ghGetSubjectVar m r).2 ≠ [] := by
  cases m with
  | nil => simp [ghGetSubjectVar]
  | cons p rest => obtain ⟨k, v⟩ := p; simp [ghGetSubjectVar]

theorem ghGet_preserve {m : List (String × String)} (r : String) {k v : String}
    (h : alookup m k = some v) :
    alookup (ghGetSubjectVar m r).2 k = some v := by
  cases m with
  | nil => simp [alookup] at h
  | cons p rest => obtain ⟨k0, v0⟩ := p; simpa [ghGetSubjectVar] using h

theorem ggo_snd (m : List (String × String)) (existing : List Triple)
    (sv : List String) (sp : List Triple) (attr : Attribute)
    (rest : List Attribute) :
    (convertGroupByGo m existing sv sp (attr :: rest)).2 =
      (convertGroupByGo (ghGetSubjectVar m attr.relation).2 existing sv sp rest).2 := by
  simp only [convertGroupByGo]
  by_cases hsub : strLower attr.name = "subject"
  · rw [if_pos hsub]
  · rw [if_neg hsub]
    rcases hfs : (if sv.isEmpty then (none : Option String)
        else findSelectVarForAttribute attr sv sp) with _ | v
    · by_cases hpe : (!patternExistsSP existing (ghGetSubjectVar m attr.relation).1
          (predURI attr.name)) = true
      · rw [if_pos hpe]
      · rw [if_neg hpe]
    · rfl

theorem hgo_snd (m : List (String × String)) (existing : List Triple)
    (sv : List String) (sp : List Triple) (cond : WhereCondition)
    (rest : List WhereCondition) :
    (convertHavingGo m existing sv sp (cond :: rest)).2 =
      (convertHavingGo (ghGetSubjectVar m cond.attr.relation).2 existing sv sp rest).2 := by
  simp only [convertHavingGo]
  cases hag : cond.attr.aggregate <;> rfl

theorem ggo_state_of_ne (existing : List Triple) (sv : List String) (sp : List Triple) :
    ∀ (attrs : List Attribute) (m : List (String × String)), m ≠ [] →
      (convertGroupByGo m existing sv sp attrs).2 = m := by
  intro attrs
  induction attrs with
  | nil => intro m _; rfl
  | cons attr rest ih =>
    intro m hm
    rw [ggo_snd, ghGet_snd_of_ne attr.relation hm]
    exact ih m hm

theorem hgo_state_of_ne (existing : List Triple) (sv : List String) (sp : List Triple) :
    ∀ (conds : List WhereCondition) (m : List (String × String)), m ≠ [] →
      (convertHavingGo m existing sv sp conds).2 = m := by
  intro conds
  induction conds with
  | nil => intro m _; rfl
  | cons cond rest ih =>
    intro m hm
    rw [hgo_snd, ghGet_snd_of_ne cond.attr.relation hm]
    exact ih m hm

theorem ggo_state_ne_of_cons (existing : List Triple) (sv : List String)
    (sp : List Triple) (attr : Attribute) (rest : List Attribute)
    (m : List (String × String)) :
    (convertGroupByGo m existing sv sp (attr :: rest)).2 ≠ [] := by
  rw [ggo_snd,
    ggo_state_of_ne existing sv sp rest _ (ghGet_snd_ne m attr.relation)]
  exact ghGet_snd_ne m attr.relation

theorem hgo_state_ne_of_cons (existing : List Triple) (sv : List String)
    (sp : List Triple) (cond : WhereCondition) (rest : List WhereCondition)
    (m : List (String × String)) :
    (convertHavingGo m existing sv sp (cond :: rest)).2 ≠ [] := by
  rw [hgo_snd,
    hgo_state_of_ne existing sv sp rest _ (ghGet_snd_ne m cond.attr.relation)]
  exact ghGet_snd_ne m cond.attr.relation

theorem ggo_eff (existing : List Triple) (sv : List String) (sp : List Triple) :
    ∀ (attrs : List Attribute) (m : List (String × String)),
      ghEffVal (convertGroupByGo m existing sv sp attrs).2 = ghEffVal m := by
  intro attrs
  induction attrs with
  | nil => intro m; rfl
  | cons attr rest ih =>
    intro m
    rw [ggo_snd, ih, ghGet_eff]

theorem hgo_eff (existing : List Triple) (sv : List String) (sp : List Triple) :
    ∀ (conds : List WhereCondition) (m : List (String × String)),
      ghEffVal (convertHavingGo m existing sv sp conds).2 = ghEffVal m := by
  intro conds
  induction conds with
  | nil => intro m; rfl
  | cons cond rest ih =>
    intro m
    rw [hgo_snd, ih, ghGet_eff]

theorem ggo_preserve (existing : List Triple) (sv : List String) (sp : List Triple) :
    ∀ (attrs : List Attribute) (m : List (String × String)) (k v : String),
      alookup m k = some v →
      alookup (convertGroupByGo m existing sv sp attrs).2 k = some v := by
  intro attrs
  induction attrs with
  | nil => intro m k v h; exact h
  | cons attr rest ih =>
    intro m k v h
    rw [ggo_snd]
    exact ih _ k v (ghGet_preserve attr.relation h)

theorem hgo_preserve (existing : List Triple) (sv : List String) (sp : List Triple) :
    ∀ (conds : List WhereCondition) (m : List (String × String)) (k v : String),
      alookup m k = some v →
      alookup (convertHavingGo m existing sv sp conds).2 k = some v := by
  intro conds
  induction conds with
  | nil => intro m k v h; exact h
  | cons cond rest ih =>
    intro m k v h
    rw [hgo_snd]
    exact ih _ k v (ghGet_preserve cond.attr.relation h)

theorem ggo_sim (existing : List Triple) (sv : List String) (sp : List Triple) :
    ∀ (attrs : List Attribute) (m mq : List (String × String)),
      ghEffVal m = ghEffVal mq →
      (convertGroupByGo m existing sv sp attrs).1 =
        (convertGroupByGo mq existing sv sp attrs).1 := by
  intro attrs
  induction attrs with
  | nil => intro m mq _; rfl
  | cons attr rest ih =>
    intro m mq heq
    have hv : (ghGetSubjectVar m attr.relation).1 =
        (ghGetSubjectVar mq attr.relation).1 := by
      rw [ghGet_fst, ghGet_fst, heq]
    have hrec := ih (ghGetSubjectVar m attr.relation).2
      (ghGetSubjectVar mq attr.relation).2
      (by rw [ghGet_eff, ghGet_eff, heq])
    simp only [convertGroupByGo]
    by_cases hsub : strLower attr.name = "subject"
    · rw [if_pos hsub, if_pos hsub, hv, hrec]
    · rw [if_neg hsub, if_neg hsub]
      rcases hfs : (if sv.isEmpty then (none : Option String)
          else findSelectVarForAttribute attr sv sp) with _ | v
      · rw [hv]
        by_cases hpe : (!patternExistsSP existing (ghGetSubjectVar mq attr.relation).1
            (predURI attr.name)) = true
        · rw [if_pos hpe, if_pos hpe, hrec]
        · rw [if_neg hpe, if_neg hpe, hrec]
      · rw [hrec]

theorem hgo_sim (existing : List Triple) (sv : List String) (sp : List Triple) :
    ∀ (conds : List WhereCondition) (m mq : List (String × String)),
      ghEffVal m = ghEffVal mq →
      (convertHavingGo m existing sv sp conds).1 =
        (convertHavingGo mq existing sv sp conds).1 := by
  intro conds
  induction conds with
  | nil => intro m mq _; rfl
  | cons cond rest ih =>
    intro m mq heq
    have hv : (ghGetSubjectVar m cond.attr.relation).1 =
        (ghGetSubjectVar mq cond.attr.relation).1 := by
      rw [ghGet_fst, ghGet_fst, heq]
    have hrec := ih (ghGetSubjectVar m cond.attr.relation).2
      (ghGetSubjectVar mq cond.attr.relation).2
      (by rw [ghGet_eff, ghGet_eff, heq])
    simp only [convertHavingGo]
    cases hag : cond.attr.aggregate with
    | none => exact hrec
    | some agg => rw [hv, hrec]

theorem ghx_step (m : List (String × String)) (p : Triple) (ps : List Triple) :
    ghExtractSubjectVars m (p :: ps) =
      ghExtractSubjectVars
        (if listStartsWith p.subject.data "?s".data then aset m p.subject p.subject
         else m) ps := by
  simp [ghExtractSubjectVars]

theorem alookup_aset_self_preserve {m : List (String × String)} {k j : String}
    (h : alookup m j = some j) : alookup (aset m k k) j = some j := by
  by_cases hkj : k = j
  · subst hkj; exact alookup_aset_self m k k
  · rw [alookup_aset_of_ne hkj]; exact h

theorem aset_ne_nil (m : List (String × String)) (k v : String) :
    aset m k v ≠ [] := by
  cases m with
  | nil => simp [aset]
  | cons p rest =>
    obtain ⟨k0, v0⟩ := p
    by_cases hk : k0 = k <;> simp [aset, hk]

theorem ghx_preserve_self (ps : List Triple) :
    ∀ (m : List (String × String)) (k : String), alookup m k = some k →
      alookup (ghExtractSubjectVars m ps) k = some k := by
  induction ps with
  | nil => intro m k h; exact h
  | cons p rest ih =>
    intro m k h
    rw [ghx_step]
    by_cases hps : listStartsWith p.subject.data "?s".data = true
    · rw [if_pos hps]
      exact ih _ k (alookup_aset_self_preserve h)
    · rw [if_neg hps]
      exact ih _ k h

theorem ghx_binds (ps : List Triple) :
    ∀ (m : List (String × String)), ∀ p ∈ ps,
      listStartsWith p.subject.data "?s".data = true →
      alookup (ghExtractSubjectVars m ps) p.subject = some p.subject := by
  induction ps with
  | nil => intro m p hp; simp at hp
  | cons q rest ih =>
    intro m p hp hps
    rw [ghx_step]
    rcases List.mem_cons.mp hp with hq | hq
    · subst hq
      rw [if_pos hps]
      exact ghx_preserve_self rest _ _ (alookup_aset_self m p.subject p.subject)
    · exact ih _ p hq hps

theorem ghx_id (ps : List Triple) :
    ∀ (m : List (String × String)),
      (∀ p ∈ ps, listStartsWith p.subject.data "?s".data = true →
        alookup m p.subject = some p.subject) →
      ghExtractSubjectVars m ps = m := by
  induction ps with
  | nil => intro m _; rfl
  | cons q rest ih =>
    intro m h
    rw [ghx_step]
    by_cases hqs : listStartsWith q.subject.data "?s".data = true
    · rw [if_pos hqs, aset_eq_of_alookup (h q (List.mem_cons_self q rest) hqs)]
      exact ih m (fun p hp hps => h p (List.mem_cons_of_mem q hp) hps)
    · rw [if_neg hqs]
      exact ih m (fun p hp hps => h p (List.mem_cons_of_mem q hp) hps)

theorem ghx_ne (ps : List Triple) :
    ∀ (m : List (String × String)), m ≠ [] →
      ghExtractSubjectVars m ps ≠ [] := by
  induction ps with
  | nil => intro m h; exact h
  | cons q rest ih =>
    intro m h
    rw [ghx_step]
    by_cases hqs : listStartsWith q.subject.data "?s".data = true
    · rw [if_pos hqs]
      exact ih _ (aset_ne_nil m q.subject q.subject)
    · rw [if_neg hqs]
      exact ih m h

theorem ghEffVal_aset (m : List (String × String)) (k : String)
    (h : k = ghEffVal m ∨ alookup m k = some k) :
    ghEffVal (aset m k k) = ghEffVal m := by
  cases m with
  | nil =>
    rcases h with h1 | h2
    · simp [aset, ghEffVal, h1]
    · simp [alookup] at h2
  | cons p rest =>
    obtain ⟨k0, v0⟩ := p
    by_cases hk : k0 = k
    · have hv0 : v0 = k := by
        rcases h with h1 | h2
        · exact h1.symm
        · rw [← hk] at h2
          simp [alookup] at h2
          exact h2.trans hk
      simp [aset, hk, ghEffVal, hv0]
    · simp [aset, hk, ghEffVal]

theorem ghx_eff (ps : List Triple) :
    ∀ (m : List (String × String)),
      (∀ p ∈ ps, listStartsWith p.subject.data "?s".data = true →
        p.subject = ghEffVal m ∨ alookup m p.subject = some p.subject) →
      ghEffVal (ghExtractSubjectVars m ps) = ghEffVal m := by
  induction ps with
  | nil => intro m _; rfl
  | cons q rest ih =>
    intro m h
    rw [ghx_step]
    by_cases hqs : listStartsWith q.subject.data "?s".data = true
    · rw [if_pos hqs]
      have heffa : ghEffVal (aset m q.subject q.subject) = ghEffVal m :=
        ghEffVal_aset m q.subject (h q (List.mem_cons_self q rest) hqs)
    
      rw [← heffa]
      apply ih
      intro p hp hps
      rcases h p (List.mem_cons_of_mem q hp) hps with h1 | h2
      · exact Or.inl (by rw [h1, heffa])
      · exact Or.inr (alookup_aset_self_preserve h2)
    · rw [if_neg hqs]
      exact ih m (fun p hp hps => h p (List.mem_cons_of_mem q hp) hps)

theorem mem_dedupAppend (new : List Triple) :
    ∀ (acc : List Triple) (t : Triple), t ∈ dedupAppend acc new →
      t ∈ acc ∨ t ∈ new := by
  induction new with
  | nil => intro acc t ht; exact Or.inl ht
  | cons p rest ih =>
    intro acc t ht
    have hstep : t ∈ dedupAppend
        (if patternExistsFull acc p then acc else acc ++ [p]) rest := by
      simpa [dedupAppend] using ht
    rcases ih _ t hstep with hacc | hrest
    · by_cases hpe : patternExistsFull acc p = true
      · rw [if_pos hpe] at hacc; exact Or.inl hacc
      · rw [if_neg hpe] at hacc
        rcases List.mem_append.mp hacc with h1 | h1
        · exact Or.inl h1
        · simp at h1
          exact Or.inr (by rw [h1]; exact List.mem_cons_self p rest)
    · exact Or.inr (List.mem_cons_of_mem p hrest)

theorem ggo_subjects (existing : List Triple) (sv : List String) (sp : List Triple) :
    ∀ (attrs : List Attribute) (m : List (String × String)) (t : Triple),
      t ∈ (convertGroupByGo m existing sv sp attrs).1.2 →
      t.subject = ghEffVal m := by
  intro attrs
  induction attrs with
  | nil => intro m t ht; simp [convertGroupByGo] at ht
  | cons attr rest ih =>
    intro m t ht
    have hrec : ∀ t', t' ∈ (convertGroupByGo (ghGetSubjectVar m attr.relation).2
        existing sv sp rest).1.2 → t'.subject = ghEffVal m := by
      intro t' ht'
      rw [← ghGet_eff m attr.relation]
      exact ih _ t' ht'
    simp only [convertGroupByGo] at ht
    by_cases hsub : strLower attr.name = "subject"
    · rw [if_pos hsub] at ht
      rcases List.mem_append.mp ht with h1 | h1
      · by_cases hpe : (!patternExistsSP existing
            (ghGetSubjectVar m attr.relation).1 "rdf:type") = true
        · rw [if_pos hpe] at h1
          simp at h1
          rw [h1]
          exact ghGet_fst m attr.relation
        · rw [if_neg hpe] at h1
          simp at h1
      · exact hrec t h1
    · rw [if_neg hsub] at ht
      rcases hfs : (if sv.isEmpty then (none : Option String)
          else findSelectVarForAttribute attr sv sp) with _ | v
      · rw [hfs] at ht
        by_cases hpe : (!patternExistsSP existing
            (ghGetSubjectVar m attr.relation).1 (predURI attr.name)) = true
        · rw [if_pos hpe] at ht
          rcases List.mem_cons.mp ht with h1 | h1
          · rw [h1]
            exact ghGet_fst m attr.relation
          · exact hrec t h1
        · rw [if_neg hpe] at ht
          exact hrec t ht
      · rw [hfs] at ht
        exact hrec t ht

theorem convertGroupBy_rerun (attrs : List Attribute) (existing : List Triple)
    (sv : List String) (sp : List Triple) (gs : GHState) :
    convertGroupBy attrs existing sv sp (convertGroupBy attrs existing sv sp gs).2 =
      convertGroupBy attrs existing sv sp gs := by
  simp only [convertGroupBy]
  have hbinds : ¬ existing.isEmpty = true →
      ∀ p ∈ existing, listStartsWith p.subject.data "?s".data = true →
        alookup (convertGroupByGo (if existing.isEmpty then gs.subjectVars
          else ghExtractSubjectVars gs.subjectVars existing) existing sv sp attrs).2
          p.subject = some p.subject := by
    intro he p hp hps
    apply ggo_preserve
    rw [if_neg he]
    exact ghx_binds existing gs.subjectVars p hp hps
  have hm0q : (if existing.isEmpty then
        (convertGroupByGo (if existing.isEmpty then gs.subjectVars
          else ghExtractSubjectVars gs.subjectVars existing) existing sv sp attrs).2
      else ghExtractSubjectVars
        (convertGroupByGo (if existing.isEmpty then gs.subjectVars
          else ghExtractSubjectVars gs.subjectVars existing) existing sv sp attrs).2
        existing) =
      (convertGroupByGo (if existing.isEmpty then gs.subjectVars
        else ghExtractSubjectVars gs.subjectVars existing) existing sv sp attrs).2 := by
    by_cases he : existing.isEmpty
    · rw [if_pos he]
    · rw [if_neg he]
      exact ghx_id existing _ (hbinds he)
  rw [hm0q]
  have hout := ggo_sim existing sv sp attrs
    (convertGroupByGo (if existing.isEmpty then gs.subjectVars
      else ghExtractSubjectVars gs.subjectVars existing) existing sv sp attrs).2
    (if existing.isEmpty then gs.subjectVars
      else ghExtractSubjectVars gs.subjectVars existing)
    (ggo_eff existing sv sp attrs _)
  have hst : (convertGroupByGo (convertGroupByGo (if existing.isEmpty then gs.subjectVars
        else ghExtractSubjectVars gs.subjectVars existing) existing sv sp attrs).2
        existing sv sp attrs).2 =
      (convertGroupByGo (if existing.isEmpty then gs.subjectVars
        else ghExtractSubjectVars gs.subjectVars existing) existing sv sp attrs).2 := by
    cases attrs with
    | nil => rfl
    | cons a rest =>
      exact ggo_state_of_ne existing sv sp (a :: rest) _
        (ggo_state_ne_of_cons existing sv sp a rest _)
  rw [hout, hst]

theorem convertHaving_rerun (conds : List WhereCondition) (existing : List Triple)
    (sv : List String) (sp : List Triple) (gs : GHState) :
    convertHaving conds existing sv sp (convertHaving conds existing sv sp gs).2 =
      convertHaving conds existing sv sp gs := by
  simp only [convertHaving]
  have hbinds : ¬ existing.isEmpty = true →
      ∀ p ∈ existing, listStartsWith p.subject.data "?s".data = true →
        alookup (convertHavingGo (if existing.isEmpty then gs.subjectVars
          else ghExtractSubjectVars gs.subjectVars existing) existing sv sp conds).2
          p.subject = some p.subject := by
    intro he p hp hps
    apply hgo_preserve
    rw [if_neg he]
    exact ghx_binds existing gs.subjectVars p hp hps
  have hm0q : (if existing.isEmpty then
        (convertHavingGo (if existing.isEmpty then gs.subjectVars
          else ghExtractSubjectVars gs.subjectVars existing) existing sv sp conds).2
      else ghExtractSubjectVars
        (convertHavingGo (if existing.isEmpty then gs.subjectVars
          else ghExtractSubjectVars gs.subjectVars existing) existing sv sp conds).2
        existing) =
      (convertHavingGo (if existing.isEmpty then gs.subjectVars
        else ghExtractSubjectVars gs.subjectVars existing) existing sv sp conds).2 := by
    by_cases he : existing.isEmpty
    · rw [if_pos he]
    · rw [if_neg he]
      exact ghx_id existing _ (hbinds he)
  rw [hm0q]
  have hout := hgo_sim existing sv sp conds
    (convertHavingGo (if existing.isEmpty then gs.subjectVars
      else ghExtractSubjectVars gs.subjectVars existing) existing sv sp conds).2
    (if existing.isEmpty then gs.subjectVars
      else ghExtractSubjectVars gs.subjectVars existing)
    (hgo_eff existing sv sp conds _)
  have hst : (convertHavingGo (convertHavingGo (if existing.isEmpty then gs.subjectVars
        else ghExtractSubjectVars gs.subjectVars existing) existing sv sp conds).2
        existing sv sp conds).2 =
      (convertHavingGo (if existing.isEmpty then gs.subjectVars
        else ghExtractSubjectVars gs.subjectVars existing) existing sv sp conds).2 := by
    cases conds with
    | nil => rfl
    | cons c rest =>
      exact hgo_state_of_ne existing sv sp (c :: rest) _
        (hgo_state_ne_of_cons existing sv sp c rest _)
  rw [hout, hst]

theorem ghComposite_rerun (gb : List Attribute) (hv : List WhereCondition)
    (wp1 : List Triple) (sv : List String) (sp : List Triple) (gs0 : GHState) :
    (convertGroupBy gb wp1 sv sp
        (convertHaving hv (dedupAppend wp1 (convertGroupBy gb wp1 sv sp gs0).1.2)
          sv sp (convertGroupBy gb wp1 sv sp gs0).2).2).1 =
      (convertGroupBy gb wp1 sv sp gs0).1 ∧
    (convertGroupBy gb wp1 sv sp
        (convertHaving hv (dedupAppend wp1 (convertGroupBy gb wp1 sv sp gs0).1.2)
          sv sp (convertGroupBy gb wp1 sv sp gs0).2).2).2 =
      (convertHaving hv (dedupAppend wp1 (convertGroupBy gb wp1 sv sp gs0).1.2)
        sv sp (convertGroupBy gb wp1 sv sp gs0).2).2 ∧
    (convertHaving hv (dedupAppend wp1 (convertGroupBy gb wp1 sv sp gs0).1.2) sv sp
        (convertHaving hv (dedupAppend wp1 (convertGroupBy gb wp1 sv sp gs0).1.2)
          sv sp (convertGroupBy gb wp1 sv sp gs0).2).2).1 =
      (convertHaving hv (dedupAppend wp1 (convertGroupBy gb wp1 sv sp gs0).1.2)
        sv sp (convertGroupBy gb wp1 sv sp gs0).2).1 ∧
    (convertHaving hv (dedupAppend wp1 (convertGroupBy gb wp1 sv sp gs0).1.2) sv sp
        (convertHaving hv (dedupAppend wp1 (convertGroupBy gb wp1 sv sp gs0).1.2)
          sv sp (convertGroupBy gb wp1 sv sp gs0).2).2).2 =
      (convertHaving hv (dedupAppend wp1 (convertGroupBy gb wp1 sv sp gs0).1.2)
        sv sp (convertGroupBy gb wp1 sv sp gs0).2).2 := by
  simp only [convertGroupBy, convertHaving]
  set M := if wp1.isEmpty then gs0.subjectVars
    else ghExtractSubjectVars gs0.subjectVars wp1 with hMdef
  set B := convertGroupByGo M wp1 sv sp gb with hBdef
  set C := dedupAppend wp1 B.1.2 with hCdef
  set D := if C.isEmpty then B.2 else ghExtractSubjectVars B.2 C with hDdef
  set E := convertHavingGo D C sv sp hv with hEdef
  have hb2binds : ∀ p ∈ wp1, listStartsWith p.subject.data "?s".data = true →
      alookup B.2 p.subject = some p.subject := by
    intro p hp hps
    have hne : ¬ wp1.isEmpty = true := by
      intro h
      rw [List.isEmpty_iff] at h
      rw [h] at hp
      simp at hp
    rw [hBdef]
    apply ggo_preserve
    rw [hMdef, if_neg hne]
    exact ghx_binds wp1 gs0.subjectVars p hp hps
  have h1 : ghEffVal B.2 = ghEffVal M := by
    rw [hBdef]; exact ggo_eff wp1 sv sp gb M
  have hCsub : ∀ p ∈ C, listStartsWith p.subject.data "?s".data = true →
      p.subject = ghEffVal B.2 ∨ alookup B.2 p.subject = some p.subject := by
    intro p hp hps
    rcases mem_dedupAppend B.1.2 wp1 p (by rw [← hCdef]; exact hp) with hw | hg2
    · exact Or.inr (hb2binds p hw hps)
    · left
      rw [h1]
      exact ggo_subjects wp1 sv sp gb M p (by rw [← hBdef]; exact hg2)
  have hD : ghEffVal D = ghEffVal B.2 := by
    rw [hDdef]
    by_cases hce : C.isEmpty
    · rw [if_pos hce]
    · rw [if_neg hce]
      exact ghx_eff C B.2 hCsub
  have hE : ghEffVal E.2 = ghEffVal D := by
    rw [hEdef]; exact hgo_eff C sv sp hv D
  have hCbindsE2 : ∀ p ∈ C, listStartsWith p.subject.data "?s".data = true →
      alookup E.2 p.subject = some p.subject := by
    intro p hp hps
    have hne : ¬ C.isEmpty = true := by
      intro h
      rw [List.isEmpty_iff] at h
      rw [h] at hp
      simp at hp
    rw [hEdef]
    apply hgo_preserve
    rw [hDdef, if_neg hne]
    exact ghx_binds C B.2 p hp hps
  have hW1bindsE2 : ∀ p ∈ wp1, listStartsWith p.subject.data "?s".data = true →
      alookup E.2 p.subject = some p.subject := by
    intro p hp hps
    have hb2 := hb2binds p hp hps
    rw [hEdef]
    apply hgo_preserve
    rw [hDdef]
    by_cases hce : C.isEmpty
    · rw [if_pos hce]; exact hb2
    · rw [if_neg hce]
      exact ghx_preserve_self C B.2 p.subject hb2
  have hM0g : (if wp1.isEmpty then E.2 else ghExtractSubjectVars E.2 wp1) = E.2 := by
    by_cases he1 : wp1.isEmpty
    · rw [if_pos he1]
    · rw [if_neg he1]
      exact ghx_id wp1 E.2 hW1bindsE2
  have hEeffM : ghEffVal E.2 = ghEffVal M := by rw [hE, hD, h1]
  have houtG : (convertGroupByGo E.2 wp1 sv sp gb).1 = B.1 := by
    rw [hBdef]
    exact ggo_sim wp1 sv sp gb E.2 M hEeffM
  have hstG : (convertGroupByGo E.2 wp1 sv sp gb).2 = E.2 := by
    cases gb with
    | nil => rfl
    | cons a rest =>
      have hB2ne : B.2 ≠ [] := by
        rw [hBdef]; exact ggo_state_ne_of_cons wp1 sv sp a rest M
      have hDne : D ≠ [] := by
        rw [hDdef]
        by_cases hce : C.isEmpty
        · rw [if_pos hce]; exact hB2ne
        · rw [if_neg hce]; exact ghx_ne C B.2 hB2ne
      have hE2ne : E.2 ≠ [] := by
        rw [hEdef, hgo_state_of_ne C sv sp hv D hDne]
        exact hDne
      exact ggo_state_of_ne wp1 sv sp (a :: rest) E.2 hE2ne
  have hM0h : (if C.isEmpty then E.2 else ghExtractSubjectVars E.2 C) = E.2 := by
    by_cases hce : C.isEmpty
    · rw [if_pos hce]
    · rw [if_neg hce]
      exact ghx_id C E.2 hCbindsE2
  have houtH : (convertHavingGo E.2 C sv sp hv).1 = E.1 := by
    rw [hEdef]
    exact hgo_sim C sv sp hv E.2 D (by rw [hE])
  have hstH : (convertHavingGo E.2 C sv sp hv).2 = E.2 := by
    cases hv with
    | nil => rw [hEdef]; rfl
    | cons c rest =>
      have hE2ne : E.2 ≠ [] := by
        rw [hEdef]; exact hgo_state_ne_of_cons C sv sp c rest D
      exact hgo_state_of_ne C sv sp (c :: rest) E.2 hE2ne
  refine ⟨?_, ?_, ?_, ?_⟩
  · rw [hM0g]
    exact houtG
  · rw [hM0g]
    exact congrArg GHState.mk hstG
  · rw [hM0h]
    exact houtH
  · rw [hM0h]
    exact congrArg GHState.mk hstH

theorem convertSelectQuery_rerun (q : SQLQuery) (st : ConvState) :
    convertSelectQuery q (convertSelectQuery q st).2 = convertSelectQuery q st := by
  by_cases hW : (!q.join_conditions.isEmpty || !q.where_conditions.isEmpty) = true
  · by_cases hG : (!q.group_by.isEmpty) = true
    · by_cases hH : (!q.having.isEmpty) = true
      · simp only [convertSelectQuery, hW, hG, hH, eq_self_iff_true, if_true]
        rw [whereConvert_rerun]
        rw [(ghComposite_rerun q.group_by q.having _
          (selectConvert q.select_attributes).1 (selectConvert q.select_attributes).2 st.ghSt).1]
        rw [(ghComposite_rerun q.group_by q.having _
          (selectConvert q.select_attributes).1 (selectConvert q.select_attributes).2 st.ghSt).2.1]
        rw [(ghComposite_rerun q.group_by q.having _
          (selectConvert q.select_attributes).1 (selectConvert q.select_attributes).2 st.ghSt).2.2.1]
        rw [(ghComposite_rerun q.group_by q.having _
          (selectConvert q.select_attributes).1 (selectConvert q.select_attributes).2 st.ghSt).2.2.2]
      · simp only [convertSelectQuery, hW, hG, hH, eq_self_iff_true, if_true,
          Bool.false_eq_true, if_false]
        rw [whereConvert_rerun]
        rw [convertGroupBy_rerun]
    · by_cases hH : (!q.having.isEmpty) = true
      · simp only [convertSelectQuery, hW, hG, hH, eq_self_iff_true, if_true,
          Bool.false_eq_true, if_false]
        rw [whereConvert_rerun]
        rw [convertHaving_rerun]
      · simp only [convertSelectQuery, hW, hG, hH, eq_self_iff_true, if_true,
          Bool.false_eq_true, if_false]
        rw [whereConvert_rerun]
  · by_cases hG : (!q.group_by.isEmpty) = true
    · by_cases hH : (!q.having.isEmpty) = true
      · simp only [convertSelectQuery, hW, hG, hH, eq_self_iff_true, if_true,
          Bool.false_eq_true, if_false]
        rw [(ghComposite_rerun q.group_by q.having _
          (selectConvert q.select_attributes).1 (selectConvert q.select_attributes).2 st.ghSt).1]
        rw [(ghComposite_rerun q.group_by q.having _
          (selectConvert q.select_attributes).1 (selectConvert q.select_attributes).2 st.ghSt).2.1]
        rw [(ghComposite_rerun q.group_by q.having _
          (selectConvert q.select_attributes).1 (selectConvert q.select_attributes).2 st.ghSt).2.2.1]
        rw [(ghComposite_rerun q.group_by q.having _
          (selectConvert q.select_attributes).1 (selectConvert q.select_attributes).2 st.ghSt).2.2.2]
      · simp only [convertSelectQuery, hW, hG, hH, eq_self_iff_true, if_true,
          Bool.false_eq_true, if_false]
        rw [convertGroupBy_rerun]
    · by_cases hH : (!q.having.isEmpty) = true
      · simp only [convertSelectQuery, hW, hG, hH, eq_self_iff_true, if_true,
          Bool.false_eq_true, if_false]
        rw [convertHaving_rerun]
      · simp only [convertSelectQuery, hW, hG, hH, eq_self_iff_true, if_true,
          Bool.false_eq_true, if_false]

theorem convertQuery_rerun (q : SQLQuery) (entityId : String) (st : ConvState) :
    convertQuery q entityId (convertQuery q entityId st).2 =
      convertQuery q entityId st := by
  cases htype : q.type with
  | select =>
    simp only [convertQuery, htype]
    exact convertSelectQuery_rerun q st
  | insert => simp only [convertQuery, htype]
  | delete => simp only [convertQuery, htype]
  | update => simp only [convertQuery, htype]

theorem convertStandard_rerun (sql entityId : String) (st : ConvState) :
    convertStandard sql entityId
        (match convertStandard sql entityId st with
         | some r => r.2
         | none => st) =
      convertStandard sql entityId st := by
  cases hp : parseSQL sql with
  | none => simp [convertStandard, hp]
  | some q =>
    simp only [convertStandard, hp, Option.map_some']
    rw [convertQuery_rerun]

/-- C1 counterexample: the INSERT path embeds the per-call random
`uuid.uuid4().hex[:8]` entity identifier (the `entityId` input of the
embedding) in its output, so converting the same INSERT text twice — two
independent draws — does not yield byte-identical output. -/
theorem claim_C1_counterexample :
    convertInsert "client" [("name", .pstr "Alice")] "11111111" ≠
      convertInsert "client" [("name", .pstr "Alice")] "22222222" ∧
    sparqlToString
        { insert_triples :=
            convertInsert "client" [("name", .pstr "Alice")] "11111111" } ≠
      sparqlToString
        { insert_triples :=
            convertInsert "client" [("name", .pstr "Alice")] "22222222" } := by
  constructor <;> decide

/-- C1 amended: conversion is reproducible for everything except the INSERT
entity identifier.  Re-running the full standard conversion pipeline (parse,
convert SELECT/INSERT/DELETE, serialise) on the converter instance state left
behind by the first run returns the byte-identical output text and the same
final state: the WHERE converter replays its first-appearance subject-variable
memoisation, the GROUP BY/HAVING converter replays its subject-variable map
(including its first-stored-value reuse and `?s0` allocation), and the DELETE
and INSERT paths do not touch instance state.  The single exception is the
INSERT output, which embeds the per-call random `uuid4`-derived entity
identifier and therefore differs between two independent draws. -/
theorem claim_C1_amended :
    (∀ (sql entityId : String) (st : ConvState),
      convertStandard sql entityId
          (match convertStandard sql entityId st with
           | some r => r.2
           | none => st) =
        convertStandard sql entityId st) ∧
    (∀ (q : SQLQuery) (entityId : String) (st : ConvState),
      convertQuery q entityId (convertQuery q entityId st).2 =
        convertQuery q entityId st) ∧
    (∀ (joins : List JoinCondition) (conds : List WhereCondition)
        (existing : List Triple) (st : WState),
      whereConvert joins conds existing (whereConvert joins conds existing st).2 =
        whereConvert joins conds existing st) ∧
    convertInsert "client" [("name", .pstr "Alice")] "11111111" ≠
      convertInsert "client" [("name", .pstr "Alice")] "22222222" :=
  ⟨fun sql entityId st => convertStandard_rerun sql entityId st,
   fun q entityId st => convertQuery_rerun q entityId st,
   fun joins conds existing st => whereConvert_rerun joins conds existing st,
   by decide⟩
